import Mathlib

/-!
Verification development for the Recreate-strategy rollout reconciler
(`pkg/controller/deployment/recreate.go`) and the OpenStack route
management binding (`DeleteRoute`).

The reconciler `rolloutRecreate` and its two helpers
`scaleDownOldReplicaSetsForRecreate` / `scaleUpNewReplicaSetForRecreate`
are translated directly from the Go source.  Their collaborators
(`getAllReplicaSetsAndSyncRevision`, `FilterActiveReplicaSets`,
`scaleReplicaSetAndRecordEvent`, `updateDeploymentStatus`,
`syncDeploymentStatus`, `cleanupDeployment`) are not part of the sampled
source files; they are modelled from the specification (sections 4.1 to
4.5).  Store reads are pure lookups over the snapshot carried in `World`;
injected failure sets model optimistic-concurrency conflicts of the
mutating calls.  Every mutating call and every status write is recorded
in a trace of `Op` values so that theorems can speak about what a pass
did, in which order.
-/

/-- A replica set as the reconciler sees it: identity (`id`, standing for
name/creation order: larger id means created later), generation identity
(`templateHash`), desired replica count (`Spec.Replicas`) and observed
replica count (`Status.Replicas`). -/
structure ReplicaSet where
  id : Nat
  templateHash : Nat
  replicas : Nat
  observed : Nat
deriving Repr, DecidableEq

/-- The deployment spec fields the Recreate reconciler reads: template
identity, desired replica count and the revision-history retention
limit. -/
structure Deployment where
  templateHash : Nat
  replicas : Nat
  revisionHistoryLimit : Option Nat
deriving Repr, DecidableEq

/-- The status projection observed by the claims: total observed replicas
and observed replicas of the new generation. -/
structure DeploymentStatus where
  replicas : Nat
  updatedReplicas : Nat
deriving Repr, DecidableEq

/-- One observable action of a reconciliation pass: a mutating scale
(compare-and-swap of the desired count), a replica-set creation, a status
write through `updateDeploymentStatus`, an invocation of
`cleanupDeployment`, or a status write through `syncDeploymentStatus`.
Status writes record the argument list exactly as passed, `Option`
standing for the Go nil pointer. -/
inductive Op where
  | scaled (rsId fromCount toCount : Nat)
  | created (rsId : Nat)
  | updatedStatus (allRSs : List (Option ReplicaSet)) (newRS : Option ReplicaSet)
  | cleanedUp (oldIds : List Nat)
  | syncedStatus (allRSs : List (Option ReplicaSet)) (newRS : Option ReplicaSet)
deriving Repr, DecidableEq

/-- Errors surfaced by the mutating store calls: an optimistic-concurrency
conflict on the replica set with the given id. -/
inductive DErr where
  | conflict (rsId : Nat)
deriving Repr, DecidableEq

/-- The stored cluster state visible to one pass: the replica sets owned
by the deployment (in the resolver's iteration order, most recently
created first), a fresh id for creations, and failure injection:
`scaleFailIds` lists replica sets whose conditional scale update hits a
concurrency conflict, `cleanupFails` makes the cleanup step fail. -/
structure World where
  rss : List ReplicaSet
  nextId : Nat
  scaleFailIds : List Nat
  cleanupFails : Bool
deriving Repr, DecidableEq

instance {ε α : Type} [DecidableEq ε] [DecidableEq α] : DecidableEq (Except ε α) :=
  fun a b =>
    match a, b with
    | Except.ok x, Except.ok y =>
      if h : x = y then isTrue (by rw [h])
      else isFalse (by intro hc; cases hc; exact h rfl)
    | Except.error x, Except.error y =>
      if h : x = y then isTrue (by rw [h])
      else isFalse (by intro hc; cases hc; exact h rfl)
    | Except.ok _, Except.error _ => isFalse (by intro hc; cases hc)
    | Except.error _, Except.ok _ => isFalse (by intro hc; cases hc)

/-- Result of one `scaleReplicaSetAndRecordEvent` call:
`didScale` flag with the updated replica set, or an error. -/
structure ScaleOne where
  res : Except DErr (Bool × ReplicaSet)
  world : World
  ops : List Op
deriving Repr, DecidableEq

/-- Result of a scaling phase: `didScale` flag or an error. -/
structure ScaleResult where
  res : Except DErr Bool
  world : World
  ops : List Op
deriving Repr, DecidableEq

/-- Result of a generation resolution. -/
structure Resolved where
  newRS : Option ReplicaSet
  oldRSs : List ReplicaSet
  world : World
  ops : List Op
deriving Repr, DecidableEq

/-- Result of one whole reconciliation pass. -/
structure PassResult where
  world : World
  trace : List Op
  err : Option DErr
deriving Repr, DecidableEq

/-- The new replica set: the one whose template hash matches the
deployment's current template (spec section 3, generation
classification). -/
def findNewRS (d : Deployment) (rss : List ReplicaSet) : Option ReplicaSet :=
  rss.find? fun rs => rs.templateHash == d.templateHash

/-- The old replica sets: all owned replica sets whose template hash does
not match the deployment's current template. -/
def oldRSsOf (d : Deployment) (rss : List ReplicaSet) : List ReplicaSet :=
  rss.filter fun rs => rs.templateHash != d.templateHash

/-- Modelled from the spec (section 4.1, Generation Resolver; the Go
function is not among the sampled sources): returns the new replica set
or nil together with the old replica sets; when `createIfNotExisted` is
set and no replica set matches the current template, creates one with
desired replicas = 0.  Store-read failures are not modelled: reads are
pure lookups over the snapshot. -/
def getAllReplicaSetsAndSyncRevision (w : World) (d : Deployment)
    (createIfNotExisted : Bool) : Resolved :=
  match findNewRS d w.rss with
  | some rs => { newRS := some rs, oldRSs := oldRSsOf d w.rss, world := w, ops := [] }
  | none =>
    if createIfNotExisted then
      let rs : ReplicaSet :=
        { id := w.nextId, templateHash := d.templateHash, replicas := 0, observed := 0 }
      { newRS := some rs, oldRSs := oldRSsOf d w.rss
      , world := { w with rss := w.rss ++ [rs], nextId := w.nextId + 1 }
      , ops := [Op.created w.nextId] }
    else
      { newRS := none, oldRSs := oldRSsOf d w.rss, world := w, ops := [] }

/-- Modelled from the spec (section 4.3 step 2; the Go function is not
among the sampled sources): keeps the replica sets that are still active,
i.e. with desired or observed replicas > 0. -/
def FilterActiveReplicaSets (rss : List ReplicaSet) : List ReplicaSet :=
  rss.filter fun rs => rs.replicas != 0 || rs.observed != 0

/-- Modelled from the spec (section 4.2, Scaling Executor; the Go
function is not among the sampled sources): a no-op returning
`didScale = false` when the current desired count already equals
`targetCount`; otherwise a single conditional update of the desired
count, which conflicts when the replica set's id is in `scaleFailIds`.
Event emission is best-effort and not part of the result. -/
def scaleReplicaSetAndRecordEvent (w : World) (rs : ReplicaSet)
    (targetCount : Nat) (_d : Deployment) : ScaleOne :=
  if rs.replicas = targetCount then
    { res := Except.ok (false, rs), world := w, ops := [] }
  else if w.scaleFailIds.contains rs.id then
    { res := Except.error (DErr.conflict rs.id), world := w, ops := [] }
  else
    { res := Except.ok (true, { rs with replicas := targetCount })
    , world := { w with rss := w.rss.map fun r =>
        if r.id = rs.id then { r with replicas := targetCount } else r }
    , ops := [Op.scaled rs.id rs.replicas targetCount] }

/-- From `recreate.go`: scales down the old replica sets one by one,
skipping those already at zero desired replicas, returning the first
error encountered and otherwise whether any was actually scaled. -/
def scaleDownOldReplicaSetsForRecreate (w : World) (oldRSs : List ReplicaSet)
    (d : Deployment) : ScaleResult :=
  match oldRSs with
  | [] => { res := Except.ok false, world := w, ops := [] }
  | rs :: rest =>
    if rs.replicas = 0 then
      scaleDownOldReplicaSetsForRecreate w rest d
    else
      let s := scaleReplicaSetAndRecordEvent w rs 0 d
      match s.res with
      | Except.error e => { res := Except.error e, world := s.world, ops := s.ops }
      | Except.ok (scaledRS, _) =>
        let t := scaleDownOldReplicaSetsForRecreate s.world rest d
        match t.res with
        | Except.error e =>
          { res := Except.error e, world := t.world, ops := s.ops ++ t.ops }
        | Except.ok scaled2 =>
          { res := Except.ok (scaledRS || scaled2), world := t.world
          , ops := s.ops ++ t.ops }

/-- From `recreate.go`: scales the new replica set up to the deployment's
desired replica count. -/
def scaleUpNewReplicaSetForRecreate (w : World) (newRS : ReplicaSet)
    (d : Deployment) : ScaleResult :=
  let s := scaleReplicaSetAndRecordEvent w newRS d.replicas d
  match s.res with
  | Except.error e => { res := Except.error e, world := s.world, ops := s.ops }
  | Except.ok (scaled, _) => { res := Except.ok scaled, world := s.world, ops := s.ops }

/-- Modelled from the spec (section 4.5, Cleanup Policy Enforcer; the Go
function is not among the sampled sources): deletes the oldest old
replica sets beyond the retention limit among those with zero desired
and zero observed replicas; a `none` limit retains everything.  The old
list arrives most-recent-first, so the excess is its tail.  On injected
failure nothing is deleted. -/
def cleanupDeployment (w : World) (oldRSs : List ReplicaSet) (d : Deployment) :
    Option Unit × World × List Op :=
  let op := Op.cleanedUp (oldRSs.map ReplicaSet.id)
  if w.cleanupFails then
    (some (), w, [op])
  else
    match d.revisionHistoryLimit with
    | none => (none, w, [op])
    | some limit =>
      let deletable := oldRSs.filter fun rs => rs.replicas == 0 && rs.observed == 0
      let excessIds := (deletable.drop limit).map ReplicaSet.id
      (none, { w with rss := w.rss.filter fun rs => !(excessIds.contains rs.id) }, [op])

/-- From `recreate.go`: one reconciliation pass of the Recreate rollout.
Resolves generations without creating, scales down the old replica sets,
stops with a status write if that made progress, otherwise ensures the
new replica set exists (second resolution, this time creating), scales it
up, stops with a status write if that made progress, and otherwise runs
cleanup (result discarded) and syncs status.  `updateDeploymentStatus`
and `syncDeploymentStatus` are modelled from the spec (section 4.4) as
infallible status writes recorded in the trace with the exact arguments
(`allRSs := append(oldRSs, newRS)`, where the appended new replica set
may be nil). -/
def rolloutRecreate (w : World) (d : Deployment) : PassResult :=
  let r0 := getAllReplicaSetsAndSyncRevision w d false
  let allRSs0 : List (Option ReplicaSet) := r0.oldRSs.map some ++ [r0.newRS]
  let sd := scaleDownOldReplicaSetsForRecreate r0.world
    (FilterActiveReplicaSets r0.oldRSs) d
  match sd.res with
  | Except.error e => { world := sd.world, trace := r0.ops ++ sd.ops, err := some e }
  | Except.ok scaledDown =>
    if scaledDown then
      { world := sd.world
      , trace := r0.ops ++ sd.ops ++ [Op.updatedStatus allRSs0 r0.newRS]
      , err := none }
    else
      let r1 :=
        match r0.newRS with
        | none => getAllReplicaSetsAndSyncRevision sd.world d true
        | some _ => { r0 with world := sd.world }
      let allRSs1 : List (Option ReplicaSet) := r1.oldRSs.map some ++ [r1.newRS]
      match r1.newRS with
      | none =>
        -- unreachable: resolution with createIfNotExisted = true always
        -- yields a new replica set (the Go code dereferences the pointer)
        { world := r1.world, trace := r0.ops ++ sd.ops ++ r1.ops, err := none }
      | some nrs =>
        let su := scaleUpNewReplicaSetForRecreate r1.world nrs d
        match su.res with
        | Except.error e =>
          { world := su.world, trace := r0.ops ++ sd.ops ++ r1.ops ++ su.ops
          , err := some e }
        | Except.ok scaledUp =>
          if scaledUp then
            { world := su.world
            , trace := r0.ops ++ sd.ops ++ r1.ops ++ su.ops
                ++ [Op.updatedStatus allRSs1 r1.newRS]
            , err := none }
          else
            let cl := cleanupDeployment su.world r1.oldRSs d
            { world := cl.2.1
            , trace := r0.ops ++ sd.ops ++ r1.ops ++ su.ops ++ cl.2.2
                ++ [Op.syncedStatus allRSs1 r1.newRS]
            , err := none }

/-- An old-generation replica set for deployment `d`. -/
def isOld (d : Deployment) (rs : ReplicaSet) : Bool :=
  rs.templateHash != d.templateHash

/-- The forbidden overlap: some old replica set with nonzero desired
replicas while the new replica set also has nonzero desired replicas. -/
def hasOverlap (d : Deployment) (rss : List ReplicaSet) : Bool :=
  (rss.any fun rs => isOld d rs && rs.replicas != 0) &&
  (match findNewRS d rss with
   | some nrs => nrs.replicas != 0
   | none => false)

/-- A mutating operation in the trace: a scale or a creation. -/
def isMutatingOp (op : Op) : Bool :=
  match op with
  | Op.scaled _ _ _ => true
  | Op.created _ => true
  | _ => false

/-- Modelled from the spec (section 4.4): the status projection is a pure
aggregation over the observed counts of the replica sets passed to the
status writer. -/
def calculateStatus (allRSs : List (Option ReplicaSet))
    (newRS : Option ReplicaSet) : DeploymentStatus :=
  { replicas := (allRSs.map fun o => (o.map ReplicaSet.observed).getD 0).sum
  , updatedReplicas := (newRS.map ReplicaSet.observed).getD 0 }

/-- The sequence of status values written by a pass, in order. -/
def statusOutput (t : List Op) : List DeploymentStatus :=
  t.filterMap fun op =>
    match op with
    | Op.updatedStatus a n => some (calculateStatus a n)
    | Op.syncedStatus a n => some (calculateStatus a n)
    | _ => none

/-- Well-formed store snapshot: replica-set ids are pairwise distinct and
below the fresh id used for creation. -/
def WF (w : World) : Prop :=
  (w.rss.map ReplicaSet.id).Nodup ∧ ∀ rs ∈ w.rss, rs.id < w.nextId

instance (w : World) : Decidable (WF w) := by
  unfold WF; infer_instance

/-- The scale-down phase of a pass, exactly as `rolloutRecreate` invokes it. -/
def sdPhase (w : World) (d : Deployment) : ScaleResult :=
  scaleDownOldReplicaSetsForRecreate w (FilterActiveReplicaSets (oldRSsOf d w.rss)) d

/-- World evolution by zeroing desired counts: every replica set of the
second store is a replica set of the first, either unchanged or with its
desired count set to zero, the latter only for ids in `ids`. -/
def ZMem (ids : List Nat) (a b : List ReplicaSet) : Prop :=
  ∀ r1 ∈ b, ∃ r0 ∈ a, r0.id = r1.id ∧
    (r1 = r0 ∨ (r1 = { r0 with replicas := 0 } ∧ r0.id ∈ ids))

lemma ZMem.refl (ids : List Nat) (a : List ReplicaSet) : ZMem ids a a := by
  intro r1 h1
  exact ⟨r1, h1, rfl, Or.inl rfl⟩

lemma ZMem.trans {ids : List Nat} {a b c : List ReplicaSet}
    (h1 : ZMem ids a b) (h2 : ZMem ids b c) : ZMem ids a c := by
  intro r2 hr2
  obtain ⟨r1, hr1, hid1, hc1⟩ := h2 r2 hr2
  obtain ⟨r0, hr0, hid0, hc0⟩ := h1 r1 hr1
  refine ⟨r0, hr0, hid0.trans hid1, ?_⟩
  rcases hc1 with h | ⟨h, hin⟩
  · subst h; exact hc0
  · rcases hc0 with h0 | ⟨h0, _⟩
    · subst h0; exact Or.inr ⟨h, hid0 ▸ hin⟩
    · subst h0
      refine Or.inr ⟨?_, hid0 ▸ hin⟩
      simp [h]

lemma ZMem.mono {ids ids' : List Nat} {a b : List ReplicaSet}
    (hsub : ∀ i ∈ ids, i ∈ ids') (h : ZMem ids a b) : ZMem ids' a b := by
  intro r1 h1
  obtain ⟨r0, hr0, hid, hc⟩ := h r1 h1
  exact ⟨r0, hr0, hid, hc.imp id fun ⟨he, hi⟩ => ⟨he, hsub _ hi⟩⟩

lemma ZMem.zero_persists {ids : List Nat} {a b : List ReplicaSet} {x : Nat}
    (h : ZMem ids a b) (hz : ∀ r ∈ a, r.id = x → r.replicas = 0) :
    ∀ r ∈ b, r.id = x → r.replicas = 0 := by
  intro r1 h1 hid1
  obtain ⟨r0, hr0, hid, hc⟩ := h r1 h1
  rcases hc with h | ⟨h, _⟩
  · subst h; exact hz r1 hr0 hid1
  · subst h; rfl

/-! ### Equation lemmas for the modelled collaborators -/

lemma resolve_false (w : World) (d : Deployment) :
    getAllReplicaSetsAndSyncRevision w d false =
      { newRS := findNewRS d w.rss, oldRSs := oldRSsOf d w.rss, world := w, ops := [] } := by
  unfold getAllReplicaSetsAndSyncRevision
  cases h : findNewRS d w.rss <;> simp [h]

/-- The replica set created by the resolver in create mode. -/
def createdRS (w : World) (d : Deployment) : ReplicaSet :=
  { id := w.nextId, templateHash := d.templateHash, replicas := 0, observed := 0 }

/-- The store right after the resolver created a new replica set. -/
def createdWorld (w : World) (d : Deployment) : World :=
  { w with rss := w.rss ++ [createdRS w d], nextId := w.nextId + 1 }

lemma resolve_true_none (w : World) (d : Deployment) (h : findNewRS d w.rss = none) :
    getAllReplicaSetsAndSyncRevision w d true =
      { newRS := some (createdRS w d)
      , oldRSs := oldRSsOf d w.rss
      , world := createdWorld w d
      , ops := [Op.created w.nextId] } := by
  unfold getAllReplicaSetsAndSyncRevision
  simp [h, createdRS, createdWorld]

lemma scaleOne_noop (w : World) (rs : ReplicaSet) (t : Nat) (d : Deployment)
    (h : rs.replicas = t) :
    scaleReplicaSetAndRecordEvent w rs t d =
      { res := Except.ok (false, rs), world := w, ops := [] } := by
  simp [scaleReplicaSetAndRecordEvent, h]

lemma scaleOne_fail (w : World) (rs : ReplicaSet) (t : Nat) (d : Deployment)
    (h : ¬ rs.replicas = t) (hf : w.scaleFailIds.contains rs.id = true) :
    scaleReplicaSetAndRecordEvent w rs t d =
      { res := Except.error (DErr.conflict rs.id), world := w, ops := [] } := by
  simp [scaleReplicaSetAndRecordEvent, h, hf]
  simpa using hf

lemma scaleOne_scale (w : World) (rs : ReplicaSet) (t : Nat) (d : Deployment)
    (h : ¬ rs.replicas = t) (hf : w.scaleFailIds.contains rs.id = false) :
    scaleReplicaSetAndRecordEvent w rs t d =
      { res := Except.ok (true, { rs with replicas := t })
      , world := { w with rss := w.rss.map fun r =>
          if r.id = rs.id then { r with replicas := t } else r }
      , ops := [Op.scaled rs.id rs.replicas t] } := by
  simp [scaleReplicaSetAndRecordEvent, h, hf]
  simpa using hf

lemma sd_nil (w : World) (d : Deployment) :
    scaleDownOldReplicaSetsForRecreate w [] d =
      { res := Except.ok false, world := w, ops := [] } := rfl

lemma sd_cons_zero (w : World) (rs : ReplicaSet) (rest : List ReplicaSet) (d : Deployment)
    (h : rs.replicas = 0) :
    scaleDownOldReplicaSetsForRecreate w (rs :: rest) d =
      scaleDownOldReplicaSetsForRecreate w rest d := by
  simp [scaleDownOldReplicaSetsForRecreate, h]

lemma sd_cons_fail (w : World) (rs : ReplicaSet) (rest : List ReplicaSet) (d : Deployment)
    (h : ¬ rs.replicas = 0) (hf : w.scaleFailIds.contains rs.id = true) :
    scaleDownOldReplicaSetsForRecreate w (rs :: rest) d =
      { res := Except.error (DErr.conflict rs.id), world := w, ops := [] } := by
  simp [scaleDownOldReplicaSetsForRecreate, h, scaleOne_fail w rs 0 d h hf]

lemma sd_cons_scale (w : World) (rs : ReplicaSet) (rest : List ReplicaSet) (d : Deployment)
    (h : ¬ rs.replicas = 0) (hf : w.scaleFailIds.contains rs.id = false) :
    scaleDownOldReplicaSetsForRecreate w (rs :: rest) d =
      let w1 : World := { w with rss := w.rss.map fun r =>
        if r.id = rs.id then { r with replicas := 0 } else r }
      let t := scaleDownOldReplicaSetsForRecreate w1 rest d
      { res := match t.res with
          | Except.error e => Except.error e
          | Except.ok _ => Except.ok true
      , world := t.world
      , ops := Op.scaled rs.id rs.replicas 0 :: t.ops } := by
  simp only [scaleDownOldReplicaSetsForRecreate, h, if_neg h,
    scaleOne_scale w rs 0 d h hf]
  cases hres : (scaleDownOldReplicaSetsForRecreate
      { w with rss := w.rss.map fun r =>
        if r.id = rs.id then { r with replicas := 0 } else r } rest d).res <;>
    simp [hres]

/-- The store after a conditional scale of the replica set with id `x`
down to zero. -/
def zeroWorld (w : World) (x : Nat) : World :=
  { w with rss := w.rss.map fun r => if r.id = x then { r with replicas := 0 } else r }

lemma sd_cons_scale_world (w : World) (rs : ReplicaSet) (rest : List ReplicaSet)
    (d : Deployment) (h : ¬ rs.replicas = 0) (hf : w.scaleFailIds.contains rs.id = false) :
    (scaleDownOldReplicaSetsForRecreate w (rs :: rest) d).world =
      (scaleDownOldReplicaSetsForRecreate (zeroWorld w rs.id) rest d).world := by
  rw [sd_cons_scale w rs rest d h hf]; rfl

lemma sd_cons_scale_ops (w : World) (rs : ReplicaSet) (rest : List ReplicaSet)
    (d : Deployment) (h : ¬ rs.replicas = 0) (hf : w.scaleFailIds.contains rs.id = false) :
    (scaleDownOldReplicaSetsForRecreate w (rs :: rest) d).ops =
      Op.scaled rs.id rs.replicas 0 ::
        (scaleDownOldReplicaSetsForRecreate (zeroWorld w rs.id) rest d).ops := by
  rw [sd_cons_scale w rs rest d h hf]; rfl

lemma sd_cons_scale_res_err (w : World) (rs : ReplicaSet) (rest : List ReplicaSet)
    (d : Deployment) (e : DErr)
    (h : ¬ rs.replicas = 0) (hf : w.scaleFailIds.contains rs.id = false)
    (ht : (scaleDownOldReplicaSetsForRecreate (zeroWorld w rs.id) rest d).res =
      Except.error e) :
    (scaleDownOldReplicaSetsForRecreate w (rs :: rest) d).res = Except.error e := by
  rw [sd_cons_scale w rs rest d h hf]
  show (match (scaleDownOldReplicaSetsForRecreate (zeroWorld w rs.id) rest d).res with
    | Except.error e => Except.error e
    | Except.ok _ => Except.ok true) = _
  rw [ht]

lemma sd_cons_scale_res_ok (w : World) (rs : ReplicaSet) (rest : List ReplicaSet)
    (d : Deployment) (b : Bool)
    (h : ¬ rs.replicas = 0) (hf : w.scaleFailIds.contains rs.id = false)
    (ht : (scaleDownOldReplicaSetsForRecreate (zeroWorld w rs.id) rest d).res =
      Except.ok b) :
    (scaleDownOldReplicaSetsForRecreate w (rs :: rest) d).res = Except.ok true := by
  rw [sd_cons_scale w rs rest d h hf]
  show (match (scaleDownOldReplicaSetsForRecreate (zeroWorld w rs.id) rest d).res with
    | Except.error e => Except.error e
    | Except.ok _ => Except.ok true) = _
  rw [ht]

lemma zeroWorld_all_zero (w : World) (x : Nat) :
    ∀ r1 ∈ (zeroWorld w x).rss, r1.id = x → r1.replicas = 0 := by
  intro r1 h1 hid
  obtain ⟨r0, hr0, heq⟩ := List.mem_map.mp h1
  by_cases h : r0.id = x
  · subst heq; simp [h]
  · subst heq
    simp [h] at hid

lemma zeroWorld_zmem (w : World) (x : Nat) (ids : List Nat) (hx : x ∈ ids) :
    ZMem ids w.rss (zeroWorld w x).rss := by
  intro r1 h1
  obtain ⟨r0, hr0, heq⟩ := List.mem_map.mp h1
  by_cases h : r0.id = x
  · subst heq
    exact ⟨r0, hr0, by simp [h], Or.inr ⟨by simp [h], h ▸ hx⟩⟩
  · subst heq
    exact ⟨r0, hr0, by simp [h], Or.inl (by simp [h])⟩

/-! ### Structural facts about the scale-down phase, by induction -/

lemma sd_frame (d : Deployment) :
    ∀ (olds : List ReplicaSet) (w : World),
      (scaleDownOldReplicaSetsForRecreate w olds d).world.nextId = w.nextId ∧
      (scaleDownOldReplicaSetsForRecreate w olds d).world.scaleFailIds = w.scaleFailIds ∧
      (scaleDownOldReplicaSetsForRecreate w olds d).world.cleanupFails = w.cleanupFails := by
  intro olds
  induction olds with
  | nil => intro w; simp [sd_nil]
  | cons rs rest ih =>
    intro w
    by_cases hz : rs.replicas = 0
    · simpa [sd_cons_zero w rs rest d hz] using ih w
    · rcases Bool.eq_false_or_eq_true (w.scaleFailIds.contains rs.id) with hf | hf
      · simp [sd_cons_fail w rs rest d hz hf]
      · rw [sd_cons_scale_world w rs rest d hz hf]
        simpa [zeroWorld] using ih (zeroWorld w rs.id)

lemma sd_zmem (d : Deployment) :
    ∀ (olds : List ReplicaSet) (w : World),
      ZMem (olds.map ReplicaSet.id) w.rss
        (scaleDownOldReplicaSetsForRecreate w olds d).world.rss := by
  intro olds
  induction olds with
  | nil => intro w; rw [sd_nil]; exact ZMem.refl _ _
  | cons rs rest ih =>
    intro w
    by_cases hz : rs.replicas = 0
    · rw [sd_cons_zero w rs rest d hz]
      exact (ih w).mono (by intro a ha; simp at ha ⊢; exact Or.inr ha)
    · rcases Bool.eq_false_or_eq_true (w.scaleFailIds.contains rs.id) with hf | hf
      · rw [sd_cons_fail w rs rest d hz hf]
        exact ZMem.refl _ _
      · rw [sd_cons_scale_world w rs rest d hz hf]
        refine ZMem.trans (zeroWorld_zmem w rs.id _ (by simp)) ?_
        exact (ih (zeroWorld w rs.id)).mono
          (by intro a ha; simp at ha ⊢; exact Or.inr ha)

lemma sd_ops (d : Deployment) :
    ∀ (olds : List ReplicaSet) (w : World),
      ∀ op ∈ (scaleDownOldReplicaSetsForRecreate w olds d).ops,
        ∃ i f, op = Op.scaled i f 0 ∧ i ∈ olds.map ReplicaSet.id := by
  intro olds
  induction olds with
  | nil => intro w; simp [sd_nil]
  | cons rs rest ih =>
    intro w op hop
    by_cases hz : rs.replicas = 0
    · rw [sd_cons_zero w rs rest d hz] at hop
      obtain ⟨i, f, heq, hi⟩ := ih w op hop
      exact ⟨i, f, heq, by simp at hi ⊢; exact Or.inr hi⟩
    · rcases Bool.eq_false_or_eq_true (w.scaleFailIds.contains rs.id) with hf | hf
      · rw [sd_cons_fail w rs rest d hz hf] at hop
        simp at hop
      · rw [sd_cons_scale_ops w rs rest d hz hf] at hop
        rcases List.mem_cons.mp hop with heq | hop
        · exact ⟨rs.id, rs.replicas, by simp [heq], by simp⟩
        · obtain ⟨i, f, heq, hi⟩ := ih (zeroWorld w rs.id) op hop
          exact ⟨i, f, heq, by simp at hi ⊢; exact Or.inr hi⟩

lemma sd_ok_false (d : Deployment) :
    ∀ (olds : List ReplicaSet) (w : World),
      (scaleDownOldReplicaSetsForRecreate w olds d).res = Except.ok false →
      scaleDownOldReplicaSetsForRecreate w olds d =
        { res := Except.ok false, world := w, ops := [] } ∧
      ∀ rs ∈ olds, rs.replicas = 0 := by
  intro olds
  induction olds with
  | nil => intro w _; exact ⟨sd_nil w d, by simp⟩
  | cons rs rest ih =>
    intro w hres
    by_cases hz : rs.replicas = 0
    · rw [sd_cons_zero w rs rest d hz] at hres ⊢
      obtain ⟨h1, h2⟩ := ih w hres
      refine ⟨h1, ?_⟩
      intro r hr
      rcases List.mem_cons.mp hr with h | h
      · exact h ▸ hz
      · exact h2 r h
    · rcases Bool.eq_false_or_eq_true (w.scaleFailIds.contains rs.id) with hf | hf
      · rw [sd_cons_fail w rs rest d hz hf] at hres
        simp at hres
      · cases ht : (scaleDownOldReplicaSetsForRecreate (zeroWorld w rs.id) rest d).res with
        | error e => rw [sd_cons_scale_res_err w rs rest d e hz hf ht] at hres; simp at hres
        | ok b => rw [sd_cons_scale_res_ok w rs rest d b hz hf ht] at hres; simp at hres

lemma sd_all_zero (d : Deployment) :
    ∀ (olds : List ReplicaSet) (w : World), (∀ rs ∈ olds, rs.replicas = 0) →
      scaleDownOldReplicaSetsForRecreate w olds d =
        { res := Except.ok false, world := w, ops := [] } := by
  intro olds
  induction olds with
  | nil => intro w _; exact sd_nil w d
  | cons rs rest ih =>
    intro w hz
    rw [sd_cons_zero w rs rest d (hz rs (List.mem_cons_self rs rest))]
    exact ih w fun r hr => hz r (List.mem_cons_of_mem rs hr)

lemma sd_ok_true_ops (d : Deployment) :
    ∀ (olds : List ReplicaSet) (w : World),
      (scaleDownOldReplicaSetsForRecreate w olds d).res = Except.ok true →
      (scaleDownOldReplicaSetsForRecreate w olds d).ops ≠ [] := by
  intro olds
  induction olds with
  | nil => intro w hres; rw [sd_nil] at hres; simp at hres
  | cons rs rest ih =>
    intro w hres
    by_cases hz : rs.replicas = 0
    · rw [sd_cons_zero w rs rest d hz] at hres ⊢
      exact ih w hres
    · rcases Bool.eq_false_or_eq_true (w.scaleFailIds.contains rs.id) with hf | hf
      · rw [sd_cons_fail w rs rest d hz hf] at hres
        simp at hres
      · rw [sd_cons_scale_ops w rs rest d hz hf]
        simp

lemma sd_zeroed (d : Deployment) :
    ∀ (olds : List ReplicaSet) (w : World) (b : Bool),
      (scaleDownOldReplicaSetsForRecreate w olds d).res = Except.ok b →
      ∀ rs ∈ olds, rs.replicas ≠ 0 →
      ∀ r1 ∈ (scaleDownOldReplicaSetsForRecreate w olds d).world.rss,
        r1.id = rs.id → r1.replicas = 0 := by
  intro olds
  induction olds with
  | nil => intro w b _ rs hrs; simp at hrs
  | cons rs0 rest ih =>
    intro w b hres rs hrs hnz
    by_cases hz : rs0.replicas = 0
    · rw [sd_cons_zero w rs0 rest d hz] at hres ⊢
      rcases List.mem_cons.mp hrs with h | h
      · exact absurd (h ▸ hz) hnz
      · exact ih w b hres rs h hnz
    · rcases Bool.eq_false_or_eq_true (w.scaleFailIds.contains rs0.id) with hf | hf
      · rw [sd_cons_fail w rs0 rest d hz hf] at hres
        simp at hres
      · cases ht : (scaleDownOldReplicaSetsForRecreate (zeroWorld w rs0.id) rest d).res with
        | error e =>
          rw [sd_cons_scale_res_err w rs0 rest d e hz hf ht] at hres
          simp at hres
        | ok b2 =>
          rw [sd_cons_scale_world w rs0 rest d hz hf]
          rcases List.mem_cons.mp hrs with h | h
          · subst h
            exact ZMem.zero_persists (sd_zmem d rest (zeroWorld w rs.id))
              (zeroWorld_all_zero w rs.id)
          · exact ih (zeroWorld w rs0.id) b2 ht rs h hnz

lemma sd_first_error (d : Deployment) :
    ∀ (pre : List ReplicaSet) (rs : ReplicaSet) (post : List ReplicaSet) (w : World),
      (∀ r ∈ pre, r.replicas = 0 ∨ w.scaleFailIds.contains r.id = false) →
      rs.replicas ≠ 0 → w.scaleFailIds.contains rs.id = true →
      (scaleDownOldReplicaSetsForRecreate w (pre ++ rs :: post) d).res =
        Except.error (DErr.conflict rs.id) ∧
      ∀ op ∈ (scaleDownOldReplicaSetsForRecreate w (pre ++ rs :: post) d).ops,
        ∃ i f, op = Op.scaled i f 0 ∧ i ∈ pre.map ReplicaSet.id := by
  intro pre
  induction pre with
  | nil =>
    intro rs post w _ hrs hf
    rw [List.nil_append, sd_cons_fail w rs post d hrs hf]
    simp
  | cons p pre ih =>
    intro rs post w hpre hrs hf
    by_cases hz : p.replicas = 0
    · rw [List.cons_append, sd_cons_zero w p (pre ++ rs :: post) d hz]
      obtain ⟨h1, h2⟩ := ih rs post w
        (fun r hr => hpre r (List.mem_cons_of_mem p hr)) hrs hf
      refine ⟨h1, ?_⟩
      intro op hop
      obtain ⟨i, f, heq, hi⟩ := h2 op hop
      exact ⟨i, f, heq, by simp at hi ⊢; exact Or.inr hi⟩
    · have hnf : w.scaleFailIds.contains p.id = false := by
        rcases hpre p (List.mem_cons_self p _) with h | h
        · exact absurd h hz
        · exact h
      have hpre1 : ∀ r ∈ pre,
          r.replicas = 0 ∨ (zeroWorld w p.id).scaleFailIds.contains r.id = false :=
        fun r hr => hpre r (List.mem_cons_of_mem p hr)
      have hf1 : (zeroWorld w p.id).scaleFailIds.contains rs.id = true := hf
      obtain ⟨h1, h2⟩ := ih rs post (zeroWorld w p.id) hpre1 hrs hf1
      rw [List.cons_append]
      refine ⟨sd_cons_scale_res_err w p (pre ++ rs :: post) d _ hz hnf h1, ?_⟩
      rw [sd_cons_scale_ops w p (pre ++ rs :: post) d hz hnf]
      intro op hop
      rcases List.mem_cons.mp hop with heq | hop
      · exact ⟨p.id, p.replicas, by simp [heq], by simp⟩
      · obtain ⟨i, f, heq, hi⟩ := h2 op hop
        exact ⟨i, f, heq, by simp at hi ⊢; exact Or.inr hi⟩

lemma rollout_sd_err (w : World) (d : Deployment) (e : DErr)
    (hsd : (sdPhase w d).res = Except.error e) :
    rolloutRecreate w d =
      { world := (sdPhase w d).world, trace := (sdPhase w d).ops, err := some e } := by
  simp only [sdPhase] at hsd ⊢
  simp only [rolloutRecreate, resolve_false]
  rw [hsd]
  simp

lemma rollout_sd_true (w : World) (d : Deployment)
    (hsd : (sdPhase w d).res = Except.ok true) :
    rolloutRecreate w d =
      { world := (sdPhase w d).world
      , trace := (sdPhase w d).ops ++
          [Op.updatedStatus ((oldRSsOf d w.rss).map some ++ [findNewRS d w.rss])
            (findNewRS d w.rss)]
      , err := none } := by
  simp only [sdPhase] at hsd ⊢
  simp only [rolloutRecreate, resolve_false]
  rw [hsd]
  simp

lemma su_noop (w : World) (nrs : ReplicaSet) (d : Deployment)
    (hz : nrs.replicas = d.replicas) :
    scaleUpNewReplicaSetForRecreate w nrs d =
      { res := Except.ok false, world := w, ops := [] } := by
  simp [scaleUpNewReplicaSetForRecreate, scaleOne_noop w nrs d.replicas d hz]

lemma su_fail (w : World) (nrs : ReplicaSet) (d : Deployment)
    (hz : ¬ nrs.replicas = d.replicas) (hf : w.scaleFailIds.contains nrs.id = true) :
    scaleUpNewReplicaSetForRecreate w nrs d =
      { res := Except.error (DErr.conflict nrs.id), world := w, ops := [] } := by
  simp [scaleUpNewReplicaSetForRecreate, scaleOne_fail w nrs d.replicas d hz hf]

lemma su_scale (w : World) (nrs : ReplicaSet) (d : Deployment)
    (hz : ¬ nrs.replicas = d.replicas) (hf : w.scaleFailIds.contains nrs.id = false) :
    scaleUpNewReplicaSetForRecreate w nrs d =
      { res := Except.ok true
      , world := { w with rss := w.rss.map fun r =>
          if r.id = nrs.id then { r with replicas := d.replicas } else r }
      , ops := [Op.scaled nrs.id nrs.replicas d.replicas] } := by
  simp [scaleUpNewReplicaSetForRecreate, scaleOne_scale w nrs d.replicas d hz hf]

lemma rollout_steady_some (w : World) (d : Deployment) (nrs : ReplicaSet)
    (hsd : (sdPhase w d).res = Except.ok false)
    (hfind : findNewRS d w.rss = some nrs)
    (hz : nrs.replicas = d.replicas) :
    rolloutRecreate w d =
      { world := (cleanupDeployment w (oldRSsOf d w.rss) d).2.1
      , trace := (cleanupDeployment w (oldRSsOf d w.rss) d).2.2 ++
          [Op.syncedStatus ((oldRSsOf d w.rss).map some ++ [some nrs]) (some nrs)]
      , err := none } := by
  have hw : scaleDownOldReplicaSetsForRecreate w
      (FilterActiveReplicaSets (oldRSsOf d w.rss)) d =
      { res := Except.ok false, world := w, ops := [] } :=
    (sd_ok_false d _ w (by simpa [sdPhase] using hsd)).1
  simp only [rolloutRecreate, resolve_false, hw, hfind, su_noop w nrs d hz]
  simp

lemma rollout_up_some (w : World) (d : Deployment) (nrs : ReplicaSet)
    (hsd : (sdPhase w d).res = Except.ok false)
    (hfind : findNewRS d w.rss = some nrs)
    (hz : ¬ nrs.replicas = d.replicas) (hf : w.scaleFailIds.contains nrs.id = false) :
    rolloutRecreate w d =
      { world := { w with rss := w.rss.map fun r =>
          if r.id = nrs.id then { r with replicas := d.replicas } else r }
      , trace := [Op.scaled nrs.id nrs.replicas d.replicas,
          Op.updatedStatus ((oldRSsOf d w.rss).map some ++ [some nrs]) (some nrs)]
      , err := none } := by
  have hw : scaleDownOldReplicaSetsForRecreate w
      (FilterActiveReplicaSets (oldRSsOf d w.rss)) d =
      { res := Except.ok false, world := w, ops := [] } :=
    (sd_ok_false d _ w (by simpa [sdPhase] using hsd)).1
  simp only [rolloutRecreate, resolve_false, hw, hfind, su_scale w nrs d hz hf]
  simp

lemma rollout_uperr_some (w : World) (d : Deployment) (nrs : ReplicaSet)
    (hsd : (sdPhase w d).res = Except.ok false)
    (hfind : findNewRS d w.rss = some nrs)
    (hz : ¬ nrs.replicas = d.replicas) (hf : w.scaleFailIds.contains nrs.id = true) :
    rolloutRecreate w d =
      { world := w, trace := [], err := some (DErr.conflict nrs.id) } := by
  have hw : scaleDownOldReplicaSetsForRecreate w
      (FilterActiveReplicaSets (oldRSsOf d w.rss)) d =
      { res := Except.ok false, world := w, ops := [] } :=
    (sd_ok_false d _ w (by simpa [sdPhase] using hsd)).1
  simp only [rolloutRecreate, resolve_false, hw, hfind, su_fail w nrs d hz hf]
  simp

lemma rollout_steady_none (w : World) (d : Deployment)
    (hsd : (sdPhase w d).res = Except.ok false)
    (hfind : findNewRS d w.rss = none)
    (hz : d.replicas = 0) :
    rolloutRecreate w d =
      { world := (cleanupDeployment (createdWorld w d) (oldRSsOf d w.rss) d).2.1
      , trace := Op.created w.nextId ::
          ((cleanupDeployment (createdWorld w d) (oldRSsOf d w.rss) d).2.2 ++
            [Op.syncedStatus ((oldRSsOf d w.rss).map some ++ [some (createdRS w d)])
              (some (createdRS w d))])
      , err := none } := by
  have hw : scaleDownOldReplicaSetsForRecreate w
      (FilterActiveReplicaSets (oldRSsOf d w.rss)) d =
      { res := Except.ok false, world := w, ops := [] } :=
    (sd_ok_false d _ w (by simpa [sdPhase] using hsd)).1
  have hc : (createdRS w d).replicas = d.replicas := hz.symm
  simp only [rolloutRecreate, resolve_false, hw, hfind, resolve_true_none w d hfind]
  simp only [su_noop (createdWorld w d) (createdRS w d) d hc]
  simp [createdWorld, createdRS]

lemma rollout_up_none (w : World) (d : Deployment)
    (hsd : (sdPhase w d).res = Except.ok false)
    (hfind : findNewRS d w.rss = none)
    (hz : ¬ d.replicas = 0) (hf : w.scaleFailIds.contains w.nextId = false) :
    rolloutRecreate w d =
      { world := { w with
          rss := (w.rss ++ [createdRS w d]).map fun r =>
            if r.id = w.nextId then { r with replicas := d.replicas } else r
          , nextId := w.nextId + 1 }
      , trace := [Op.created w.nextId, Op.scaled w.nextId 0 d.replicas,
          Op.updatedStatus ((oldRSsOf d w.rss).map some ++ [some (createdRS w d)])
            (some (createdRS w d))]
      , err := none } := by
  have hw : scaleDownOldReplicaSetsForRecreate w
      (FilterActiveReplicaSets (oldRSsOf d w.rss)) d =
      { res := Except.ok false, world := w, ops := [] } :=
    (sd_ok_false d _ w (by simpa [sdPhase] using hsd)).1
  have hc : ¬ (createdRS w d).replicas = d.replicas := fun h => hz h.symm
  have hf1 : (createdWorld w d).scaleFailIds.contains (createdRS w d).id = false := hf
  simp only [rolloutRecreate, resolve_false, hw, hfind, resolve_true_none w d hfind]
  simp only [su_scale (createdWorld w d) (createdRS w d) d hc hf1]
  simp [createdWorld, createdRS]

lemma rollout_uperr_none (w : World) (d : Deployment)
    (hsd : (sdPhase w d).res = Except.ok false)
    (hfind : findNewRS d w.rss = none)
    (hz : ¬ d.replicas = 0) (hf : w.scaleFailIds.contains w.nextId = true) :
    rolloutRecreate w d =
      { world := createdWorld w d
      , trace := [Op.created w.nextId]
      , err := some (DErr.conflict w.nextId) } := by
  have hw : scaleDownOldReplicaSetsForRecreate w
      (FilterActiveReplicaSets (oldRSsOf d w.rss)) d =
      { res := Except.ok false, world := w, ops := [] } :=
    (sd_ok_false d _ w (by simpa [sdPhase] using hsd)).1
  have hc : ¬ (createdRS w d).replicas = d.replicas := fun h => hz h.symm
  have hf1 : (createdWorld w d).scaleFailIds.contains (createdRS w d).id = true := hf
  simp only [rolloutRecreate, resolve_false, hw, hfind, resolve_true_none w d hfind]
  simp only [su_fail (createdWorld w d) (createdRS w d) d hc hf1]
  simp [createdWorld, createdRS]

/-- C5: for every replica set whose desired count already equals the
target, `scaleReplicaSetAndRecordEvent` performs no mutation and returns
didScale = false, and the scale-down phase over old replica sets that are
all already at zero desired replicas performs no mutation and reports no
scale. -/
theorem scaling_noop_anchor :
    (∀ (w : World) (rs : ReplicaSet) (t : Nat) (d : Deployment), rs.replicas = t →
      scaleReplicaSetAndRecordEvent w rs t d =
        { res := Except.ok (false, rs), world := w, ops := [] }) ∧
    (∀ (w : World) (olds : List ReplicaSet) (d : Deployment),
      (∀ rs ∈ olds, rs.replicas = 0) →
      scaleDownOldReplicaSetsForRecreate w olds d =
        { res := Except.ok false, world := w, ops := [] }) :=
  ⟨scaleOne_noop, fun w olds d h => sd_all_zero d olds w h⟩

/-- A replica set already at the target count, for the no-op witness. -/
def anchorRS : ReplicaSet := { id := 0, templateHash := 1, replicas := 3, observed := 3 }

/-- A one-replica-set store for the no-op witness. -/
def anchorWorld : World :=
  { rss := [anchorRS], nextId := 1, scaleFailIds := [], cleanupFails := false }

/-- A deployment desiring 3 replicas, for the no-op witness. -/
def anchorDeployment : Deployment :=
  { templateHash := 2, replicas := 3, revisionHistoryLimit := none }

theorem scaling_noop_anchor_witness :
    scaleReplicaSetAndRecordEvent anchorWorld anchorRS 3 anchorDeployment =
      { res := Except.ok (false, anchorRS), world := anchorWorld, ops := [] } ∧
    scaleDownOldReplicaSetsForRecreate anchorWorld
      [{ id := 0, templateHash := 1, replicas := 0, observed := 2 }] anchorDeployment =
      { res := Except.ok false, world := anchorWorld, ops := [] } :=
  ⟨scaling_noop_anchor.1 anchorWorld anchorRS 3 anchorDeployment (by decide),
   scaling_noop_anchor.2 anchorWorld _ anchorDeployment (by decide)⟩

/-- The starting state of the monotonic-convergence scenario: one old
replica set at desired 5, observed 5, and no new replica set. -/
def convergenceWorld : World :=
  { rss := [{ id := 1, templateHash := 3, replicas := 5, observed := 5 }]
  , nextId := 2, scaleFailIds := [], cleanupFails := false }

/-- The deployment of the monotonic-convergence scenario: new template
hash 4, desired count 5. -/
def convergenceDeployment : Deployment :=
  { templateHash := 4, replicas := 5, revisionHistoryLimit := some 2 }

/-- C3: from one old replica set at desired 5 observed 5 and no new
replica set, repeated passes reach old desired 0, new desired 5 in
exactly two progressing passes: the first performs only the scale-down,
the second only the creation and scale-up, no pass does both, and the
third pass performs no mutation. -/
theorem monotonic_convergence :
    (rolloutRecreate convergenceWorld convergenceDeployment).err = none ∧
    (rolloutRecreate convergenceWorld convergenceDeployment).trace.filter isMutatingOp =
      [Op.scaled 1 5 0] ∧
    (rolloutRecreate (rolloutRecreate convergenceWorld convergenceDeployment).world
      convergenceDeployment).err = none ∧
    (rolloutRecreate (rolloutRecreate convergenceWorld convergenceDeployment).world
      convergenceDeployment).trace.filter isMutatingOp =
      [Op.created 2, Op.scaled 2 0 5] ∧
    (rolloutRecreate (rolloutRecreate convergenceWorld convergenceDeployment).world
      convergenceDeployment).world.rss =
      [{ id := 1, templateHash := 3, replicas := 0, observed := 5 },
       { id := 2, templateHash := 4, replicas := 5, observed := 0 }] ∧
    (rolloutRecreate (rolloutRecreate (rolloutRecreate convergenceWorld
      convergenceDeployment).world convergenceDeployment).world
      convergenceDeployment).err = none ∧
    (rolloutRecreate (rolloutRecreate (rolloutRecreate convergenceWorld
      convergenceDeployment).world convergenceDeployment).world
      convergenceDeployment).trace.filter isMutatingOp = [] := by
  decide

/-- A static route of the OpenStack router, as `DeleteRoute` reads it. -/
structure RouterRoute where
  destinationCIDR : String
  nextHop : String
deriving Repr, DecidableEq

/-- The linear search of `DeleteRoute`: position of the first route whose
destination CIDR equals the argument's. -/
def findRouteIndex (routes : List RouterRoute) (cidr : String) : Option Nat :=
  match routes with
  | [] => none
  | r :: rest =>
    if r.destinationCIDR = cidr then some 0
    else (findRouteIndex rest cidr).map (· + 1)

/-- The `index` variable of `DeleteRoute` after its loop: left at -1 when
no route matched. -/
def deleteRouteIndex (routes : List RouterRoute) (cidr : String) : Int :=
  match findRouteIndex routes cidr with
  | some i => (i : Int)
  | none => -1

/-- The route list `DeleteRoute` writes back, from the Go expression
`append(router.Routes[:index], router.Routes[index+1:]...)`.  A negative
index makes the Go slice expression fault, modelled as `none`. -/
def deleteRouteUpdatedRoutes (routes : List RouterRoute) (cidr : String) :
    Option (List RouterRoute) :=
  let index := deleteRouteIndex routes cidr
  if 0 ≤ index then
    some (routes.take index.toNat ++ routes.drop (index.toNat + 1))
  else none

lemma findRouteIndex_isSome (routes : List RouterRoute) (cidr : String) :
    (findRouteIndex routes cidr).isSome = true ↔
      ∃ r ∈ routes, r.destinationCIDR = cidr := by
  induction routes with
  | nil => simp [findRouteIndex]
  | cons r rest ih =>
    by_cases h : r.destinationCIDR = cidr
    · simp [findRouteIndex, h]
    · simp [findRouteIndex, h, ih]

/-- C10 counterexample: with a route table holding no entry for
destination 10.164.2.0/24, `DeleteRoute` leaves index at -1 and reaches
the slice with a negative index (a Go slice-bounds fault), refuting the
claim that this is unreachable for every input. -/
theorem deleteRoute_neg_index_reached :
    deleteRouteIndex [] "10.164.2.0/24" = -1 ∧
    deleteRouteUpdatedRoutes [] "10.164.2.0/24" = none := by
  constructor <;> rfl

/-- C10 amended: the negative-index slice is unreachable exactly for the
routes whose destination CIDR occurs in the router's route list; for any
other argument the index stays -1 and the slice operation faults. -/
theorem deleteRoute_index_safe_iff (routes : List RouterRoute) (cidr : String) :
    ((∃ r ∈ routes, r.destinationCIDR = cidr) ↔ 0 ≤ deleteRouteIndex routes cidr) ∧
    ((∃ r ∈ routes, r.destinationCIDR = cidr) ↔
      (deleteRouteUpdatedRoutes routes cidr).isSome = true) := by
  have hfi := findRouteIndex_isSome routes cidr
  constructor
  · rw [← hfi]
    unfold deleteRouteIndex
    cases h : findRouteIndex routes cidr <;> simp [h]
  · rw [← hfi]
    unfold deleteRouteUpdatedRoutes deleteRouteIndex
    cases h : findRouteIndex routes cidr <;> simp [h]

lemma zmem_new_unchanged (w : World) (d : Deployment)
    (hids : (w.rss.map ReplicaSet.id).Nodup) (b : List ReplicaSet)
    (hz : ZMem ((FilterActiveReplicaSets (oldRSsOf d w.rss)).map ReplicaSet.id)
      w.rss b) :
    ∀ r1 ∈ b, r1.templateHash = d.templateHash → r1 ∈ w.rss := by
  intro r1 h1 hhash
  obtain ⟨r0, hr0, hid, hc⟩ := hz r1 h1
  rcases hc with rfl | ⟨heq, hin⟩
  · exact hr0
  · exfalso
    obtain ⟨q, hq, hqid⟩ := List.mem_map.mp hin
    have hqmem : q ∈ w.rss ∧ (q.templateHash != d.templateHash) = true := by
      have h1 := (List.mem_filter.mp hq).1
      exact ⟨(List.mem_filter.mp h1).1, (List.mem_filter.mp h1).2⟩
    have hq0 : q = r0 :=
      List.inj_on_of_nodup_map hids hqmem.1 hr0 hqid
    have h01 : r1.templateHash = r0.templateHash := by rw [heq]
    have hr0hash : r0.templateHash = d.templateHash := by rw [← h01, hhash]
    rw [hq0] at hqmem
    simp [hr0hash] at hqmem

/-- C9: in every pass where no replica set matches the current template
at first resolution and the scale-down phase reports progress, the
barrier status update receives the aggregated list with a nil entry
appended for the absent new replica set, and a nil newRS argument. -/
theorem nil_entry_in_aggregated_list (w : World) (d : Deployment)
    (hnone : findNewRS d w.rss = none)
    (hsd : (sdPhase w d).res = Except.ok true) :
    ∃ p, (rolloutRecreate w d).trace =
        p ++ [Op.updatedStatus ((oldRSsOf d w.rss).map some ++ [none]) none] ∧
      none ∈ (oldRSsOf d w.rss).map some ++ [(none : Option ReplicaSet)] := by
  rw [rollout_sd_true w d hsd, hnone]
  exact ⟨(sdPhase w d).ops, rfl, by simp⟩

theorem nil_entry_in_aggregated_list_witness :
    ∃ p, (rolloutRecreate convergenceWorld convergenceDeployment).trace =
        p ++ [Op.updatedStatus
          ((oldRSsOf convergenceDeployment convergenceWorld.rss).map some ++ [none])
          none] ∧
      none ∈ (oldRSsOf convergenceDeployment convergenceWorld.rss).map some ++
        [(none : Option ReplicaSet)] :=
  nil_entry_in_aggregated_list convergenceWorld convergenceDeployment
    (by decide) (by decide)

/-- C4: if scaling some old replica set to zero fails, the scale-down
phase returns that first error without attempting the later old replica
sets, and the pass aborts: every trace entry is a scale-down of one of
the earlier old replica sets, so nothing is created and no status is
written, and every replica set matching the current template is left
unchanged in the store. -/
theorem abort_on_scale_down_error (w : World) (d : Deployment)
    (pre post : List ReplicaSet) (rs : ReplicaSet)
    (hids : (w.rss.map ReplicaSet.id).Nodup)
    (hsplit : FilterActiveReplicaSets (oldRSsOf d w.rss) = pre ++ rs :: post)
    (hpre : ∀ r ∈ pre, r.replicas = 0 ∨ w.scaleFailIds.contains r.id = false)
    (hrs : rs.replicas ≠ 0) (hfail : w.scaleFailIds.contains rs.id = true) :
    (sdPhase w d).res = Except.error (DErr.conflict rs.id) ∧
    (rolloutRecreate w d).err = some (DErr.conflict rs.id) ∧
    (∀ op ∈ (rolloutRecreate w d).trace,
      ∃ i f, op = Op.scaled i f 0 ∧ i ∈ pre.map ReplicaSet.id) ∧
    (∀ r1 ∈ (rolloutRecreate w d).world.rss,
      r1.templateHash = d.templateHash → r1 ∈ w.rss) := by
  obtain ⟨herr, hops⟩ := sd_first_error d pre rs post w hpre hrs hfail
  have hsd : (sdPhase w d).res = Except.error (DErr.conflict rs.id) := by
    rw [sdPhase, hsplit]; exact herr
  have hroll := rollout_sd_err w d _ hsd
  refine ⟨hsd, by rw [hroll], ?_, ?_⟩
  · intro op hop
    rw [hroll] at hop
    have : op ∈ (sdPhase w d).ops := hop
    rw [sdPhase, hsplit] at this
    exact hops op this
  · intro r1 h1 hhash
    rw [hroll] at h1
    have hz : ZMem ((FilterActiveReplicaSets (oldRSsOf d w.rss)).map ReplicaSet.id)
        w.rss (sdPhase w d).world.rss := by
      rw [sdPhase, hsplit]
      exact sd_zmem d (pre ++ rs :: post) w
    exact zmem_new_unchanged w d hids _ hz r1 h1 hhash

lemma cleanup_world_mem (w : World) (olds : List ReplicaSet) (d : Deployment) :
    ∀ r ∈ (cleanupDeployment w olds d).2.1.rss, r ∈ w.rss := by
  intro r hr
  unfold cleanupDeployment at hr
  by_cases hcf : w.cleanupFails
  · simpa [hcf] using hr
  · cases hl : d.revisionHistoryLimit with
    | none => simpa [hcf, hl] using hr
    | some limit =>
      simp [hcf, hl] at hr
      exact hr.1

lemma cleanup_world_frame (w : World) (olds : List ReplicaSet) (d : Deployment) :
    (cleanupDeployment w olds d).2.1.nextId = w.nextId ∧
    (cleanupDeployment w olds d).2.1.scaleFailIds = w.scaleFailIds ∧
    (cleanupDeployment w olds d).2.1.cleanupFails = w.cleanupFails := by
  unfold cleanupDeployment
  by_cases hcf : w.cleanupFails
  · simp [hcf]
  · cases hl : d.revisionHistoryLimit with
    | none => simp [hcf, hl]
    | some limit => simp [hcf, hl]

lemma cleanup_ops (w : World) (olds : List ReplicaSet) (d : Deployment) :
    (cleanupDeployment w olds d).2.2 = [Op.cleanedUp (olds.map ReplicaSet.id)] := by
  unfold cleanupDeployment
  by_cases hcf : w.cleanupFails
  · simp [hcf]
  · cases hl : d.revisionHistoryLimit with
    | none => simp [hcf, hl]
    | some limit => simp [hcf, hl]

lemma mem_scaled_world {rss : List ReplicaSet} {x t : Nat} {r1 : ReplicaSet}
    (h : r1 ∈ rss.map fun r => if r.id = x then { r with replicas := t } else r) :
    ∃ r0 ∈ rss, r1 = (if r0.id = x then { r0 with replicas := t } else r0) := by
  obtain ⟨r0, hr0, heq⟩ := List.mem_map.mp h
  exact ⟨r0, hr0, heq.symm⟩

lemma hasOverlap_false_of_olds_zero (d : Deployment) (rss : List ReplicaSet)
    (h : ∀ r ∈ rss, isOld d r = true → r.replicas = 0) :
    hasOverlap d rss = false := by
  have hA : (rss.any fun rs => isOld d rs && rs.replicas != 0) = false := by
    rw [List.any_eq_false]
    intro r hr
    by_cases ho : isOld d r = true
    · simp [ho, h r hr ho]
    · simp only [Bool.not_eq_true] at ho
      simp [ho]
  unfold hasOverlap
  rw [hA]
  simp

lemma olds_zero_of_sd_false (w : World) (d : Deployment)
    (hsd : (sdPhase w d).res = Except.ok false) :
    ∀ r ∈ w.rss, isOld d r = true → r.replicas = 0 := by
  intro r hr hold
  by_contra hnz
  have hmem : r ∈ FilterActiveReplicaSets (oldRSsOf d w.rss) := by
    apply List.mem_filter.mpr
    refine ⟨List.mem_filter.mpr ⟨hr, hold⟩, ?_⟩
    simp [hnz]
  exact hnz ((sd_ok_false d _ w (by simpa [sdPhase] using hsd)).2 r hmem)

/-- C1: the no-overlap barrier.  First, whenever the scale-down phase
reports that an old replica set was actually scaled down this pass
(didScale = true), the pass returns success, its trace is exactly the
old-set scale-downs followed by one status write, nothing is created, and
every replica set matching the current template is left unchanged in the
store (so the new replica set is not created or scaled up).  Second,
after any successful pass the stored state has every old replica set at
zero desired replicas, hence never an old replica set with desired > 0
together with a new replica set with desired > 0. -/
theorem no_overlap_barrier (w : World) (d : Deployment) (hwf : WF w) :
    ((sdPhase w d).res = Except.ok true →
      (rolloutRecreate w d).err = none ∧
      (rolloutRecreate w d).trace =
        (sdPhase w d).ops ++
          [Op.updatedStatus ((oldRSsOf d w.rss).map some ++ [findNewRS d w.rss])
            (findNewRS d w.rss)] ∧
      (∀ op ∈ (sdPhase w d).ops, ∃ i f, op = Op.scaled i f 0) ∧
      (∀ i, Op.created i ∉ (rolloutRecreate w d).trace) ∧
      (∀ r1 ∈ (rolloutRecreate w d).world.rss,
        r1.templateHash = d.templateHash → r1 ∈ w.rss)) ∧
    ((rolloutRecreate w d).err = none →
      (∀ r1 ∈ (rolloutRecreate w d).world.rss, isOld d r1 = true → r1.replicas = 0) ∧
      hasOverlap d (rolloutRecreate w d).world.rss = false) := by
  constructor
  · intro hsd
    have hroll := rollout_sd_true w d hsd
    refine ⟨by rw [hroll], by rw [hroll], ?_, ?_, ?_⟩
    · intro op hop
      simp only [sdPhase] at hop
      obtain ⟨i, f, heq, _⟩ := sd_ops d _ w op hop
      exact ⟨i, f, heq⟩
    · intro i hin
      rw [hroll] at hin
      rcases List.mem_append.mp hin with h | h
      · simp only [sdPhase] at h
        obtain ⟨i2, f2, heq, _⟩ := sd_ops d _ w _ h
        simp at heq
      · simp at h
    · intro r1 h1 hhash
      rw [hroll] at h1
      refine zmem_new_unchanged w d hwf.1 _ ?_ r1 h1 hhash
      simp only [sdPhase]
      exact sd_zmem d _ w
  · intro herr
    have hmain : ∀ r1 ∈ (rolloutRecreate w d).world.rss,
        isOld d r1 = true → r1.replicas = 0 := by
      cases hres : (sdPhase w d).res with
      | error e =>
        rw [rollout_sd_err w d e hres] at herr
        simp at herr
      | ok b =>
        cases b with
        | true =>
          rw [rollout_sd_true w d hres]
          intro r1 h1 hold
          by_contra hnz
          have hzm : ZMem ((FilterActiveReplicaSets (oldRSsOf d w.rss)).map
              ReplicaSet.id) w.rss (sdPhase w d).world.rss := by
            simp only [sdPhase]
            exact sd_zmem d _ w
          obtain ⟨r0, hr0, hid, hc⟩ := hzm r1 h1
          rcases hc with rfl | ⟨heq, _⟩
          · have hmem : r1 ∈ FilterActiveReplicaSets (oldRSsOf d w.rss) := by
              apply List.mem_filter.mpr
              refine ⟨List.mem_filter.mpr ⟨hr0, hold⟩, ?_⟩
              simp [hnz]
            have hzz := sd_zeroed d _ w true (by simpa [sdPhase] using hres)
              r1 hmem hnz r1 (by simpa [sdPhase] using h1) rfl
            exact hnz hzz
          · exact hnz (by rw [heq])
        | false =>
          have hallz := olds_zero_of_sd_false w d hres
          cases hfind : findNewRS d w.rss with
          | some nrs =>
            by_cases hz : nrs.replicas = d.replicas
            · rw [rollout_steady_some w d nrs hres hfind hz]
              intro r1 h1 hold
              exact hallz r1 (cleanup_world_mem w _ d r1 h1) hold
            · rcases Bool.eq_false_or_eq_true (w.scaleFailIds.contains nrs.id)
                with hf | hf
              · rw [rollout_uperr_some w d nrs hres hfind hz hf] at herr
                simp at herr
              · rw [rollout_up_some w d nrs hres hfind hz hf]
                intro r1 h1 hold
                obtain ⟨r0, hr0, heq⟩ := mem_scaled_world h1
                by_cases hidm : r0.id = nrs.id
                · have hnrs : nrs ∈ w.rss := List.mem_of_find?_eq_some hfind
                  have hr0n : r0 = nrs :=
                    List.inj_on_of_nodup_map hwf.1 hr0 hnrs hidm
                  have hp : nrs.templateHash = d.templateHash := by
                    simpa using List.find?_some hfind
                  subst hr0n
                  rw [if_pos hidm] at heq
                  rw [heq] at hold
                  simp [isOld, hp] at hold
                · rw [if_neg hidm] at heq
                  rw [heq]
                  exact hallz r0 hr0 (by rwa [heq] at hold)
          | none =>
            by_cases hz : d.replicas = 0
            · rw [rollout_steady_none w d hres hfind hz]
              intro r1 h1 hold
              have h2 := cleanup_world_mem _ _ _ r1 h1
              have h2' : r1 ∈ w.rss ∨ r1 = createdRS w d := by
                simpa [createdWorld] using h2
              rcases h2' with h3 | h3
              · exact hallz r1 h3 hold
              · rw [h3] at hold
                simp [isOld, createdRS] at hold
            · rcases Bool.eq_false_or_eq_true (w.scaleFailIds.contains w.nextId)
                with hf | hf
              · rw [rollout_uperr_none w d hres hfind hz hf] at herr
                simp at herr
              · rw [rollout_up_none w d hres hfind hz hf]
                intro r1 h1 hold
                obtain ⟨r0, hr0, heq⟩ := mem_scaled_world h1
                rcases List.mem_append.mp hr0 with h3 | h3
                · have hidm : ¬ r0.id = w.nextId := Nat.ne_of_lt (hwf.2 r0 h3)
                  rw [if_neg hidm] at heq
                  rw [heq]
                  exact hallz r0 h3 (by rwa [heq] at hold)
                · simp at h3
                  rw [h3] at heq
                  simp only [createdRS] at heq
                  rw [heq] at hold
                  simp [isOld] at hold
    exact ⟨hmain, hasOverlap_false_of_olds_zero d _ hmain⟩

lemma find?_append_none {α : Type} {p : α → Bool} {l1 l2 : List α}
    (h : l1.find? p = none) : (l1 ++ l2).find? p = l2.find? p := by
  induction l1 with
  | nil => simp
  | cons x xs ih =>
    cases hp : p x with
    | true => simp [List.find?_cons_of_pos _ hp] at h
    | false =>
      rw [List.find?_cons_of_neg _ (by simp [hp])] at h
      rw [List.cons_append, List.find?_cons_of_neg _ (by simp [hp])]
      exact ih h

lemma findNewRS_none_all (w : World) (d : Deployment)
    (hfind : findNewRS d w.rss = none) :
    ∀ q ∈ w.rss, (q.templateHash == d.templateHash) = false := by
  intro q hq
  have := List.find?_eq_none.mp hfind q hq
  simpa using this

lemma findNewRS_append_created (w : World) (d : Deployment)
    (hfind : findNewRS d w.rss = none) :
    findNewRS d (w.rss ++ [createdRS w d]) = some (createdRS w d) := by
  unfold findNewRS at *
  rw [find?_append_none hfind]
  simp [createdRS]

lemma excess_not_contains_next (w : World) (d : Deployment) (hwf : WF w)
    (limit : Nat) :
    (((((oldRSsOf d w.rss).filter fun rs =>
        rs.replicas == 0 && rs.observed == 0).drop limit).map
        ReplicaSet.id).contains w.nextId) = false := by
  rw [Bool.eq_false_iff]
  intro h
  have h2 : w.nextId ∈ (((oldRSsOf d w.rss).filter fun rs =>
      rs.replicas == 0 && rs.observed == 0).drop limit).map ReplicaSet.id := by
    simpa using h
  obtain ⟨r, hr, hid⟩ := List.mem_map.mp h2
  have hr2 : r ∈ (oldRSsOf d w.rss).filter fun rs =>
      rs.replicas == 0 && rs.observed == 0 := List.drop_subset _ _ hr
  have hr2b : r ∈ oldRSsOf d w.rss := List.mem_of_mem_filter hr2
  simp only [oldRSsOf] at hr2b
  have hr3 : r ∈ w.rss := List.mem_of_mem_filter hr2b
  have := hwf.2 r hr3
  omega

lemma find_new_in_cleanup_of_created (w : World) (d : Deployment)
    (hwf : WF w) (hfind : findNewRS d w.rss = none) :
    findNewRS d (cleanupDeployment (createdWorld w d) (oldRSsOf d w.rss) d).2.1.rss =
      some (createdRS w d) := by
  unfold cleanupDeployment
  by_cases hcf : (createdWorld w d).cleanupFails
  · simp only [hcf, if_pos]
    exact findNewRS_append_created w d hfind
  · simp only [hcf, if_neg, Bool.false_eq_true, not_false_iff]
    cases hl : d.revisionHistoryLimit with
    | none => exact findNewRS_append_created w d hfind
    | some limit =>
      simp only []
      unfold findNewRS
      show ((createdWorld w d).rss.filter _).find? _ = _
      rw [show (createdWorld w d).rss = w.rss ++ [createdRS w d] from rfl]
      rw [List.filter_append]
      have hc : (createdRS w d).id = w.nextId := rfl
      have hg : (!((((oldRSsOf d w.rss).filter fun rs =>
          rs.replicas == 0 && rs.observed == 0).drop limit).map
          ReplicaSet.id).contains (createdRS w d).id) = true := by
        rw [hc, excess_not_contains_next w d hwf limit]
        rfl
      have hkeep : (List.filter (fun rs => !((((oldRSsOf d w.rss).filter fun rs =>
          rs.replicas == 0 && rs.observed == 0).drop limit).map
          ReplicaSet.id).contains rs.id) [createdRS w d]) = [createdRS w d] := by
        simp only [List.filter_cons, List.filter_nil, hg, if_true]
      rw [hkeep]
      rw [find?_append_none]
      · simp [createdRS]
      · apply List.find?_eq_none.mpr
        intro q hq
        have hq2 : q ∈ w.rss := List.mem_of_mem_filter hq
        simp [findNewRS_none_all w d hfind q hq2]

lemma find_new_in_scaled_created (w : World) (d : Deployment)
    (hfind : findNewRS d w.rss = none) :
    findNewRS d ((w.rss ++ [createdRS w d]).map fun r =>
      if r.id = w.nextId then { r with replicas := d.replicas } else r) =
      some { createdRS w d with replicas := d.replicas } := by
  unfold findNewRS
  rw [List.map_append, find?_append_none]
  · have hc : (createdRS w d).id = w.nextId := rfl
    simp [createdRS]
  · apply List.find?_eq_none.mpr
    intro x hx
    obtain ⟨r, hr, heq⟩ := List.mem_map.mp hx
    have hhash : x.templateHash = r.templateHash := by
      subst heq
      by_cases h : r.id = w.nextId <;> simp [h]
    simp [hhash, findNewRS_none_all w d hfind r hr]

/-- C6: deferred creation.  The first generation resolution of a pass
never creates a replica set; a creation appears in the trace only when
the scale-down phase reported no progress and no replica set matched the
current template at first resolution; and when a creation happened and
the pass succeeded, the stored new replica set ends the pass with desired
replicas equal to the deployment's desired count. -/
theorem deferred_creation (w : World) (d : Deployment) (hwf : WF w) :
    (getAllReplicaSetsAndSyncRevision w d false).ops = [] ∧
    (getAllReplicaSetsAndSyncRevision w d false).world = w ∧
    (∀ i, Op.created i ∈ (rolloutRecreate w d).trace →
      findNewRS d w.rss = none ∧ (sdPhase w d).res = Except.ok false) ∧
    (∀ i, Op.created i ∈ (rolloutRecreate w d).trace →
      (rolloutRecreate w d).err = none →
      ∃ nrs, findNewRS d (rolloutRecreate w d).world.rss = some nrs ∧
        nrs.replicas = d.replicas) := by
  have hbranch : ∀ i, Op.created i ∈ (rolloutRecreate w d).trace →
      findNewRS d w.rss = none ∧ (sdPhase w d).res = Except.ok false := by
    intro i hin
    cases hres : (sdPhase w d).res with
    | error e =>
      rw [rollout_sd_err w d e hres] at hin
      simp only [sdPhase] at hin
      obtain ⟨i2, f2, heq, _⟩ := sd_ops d _ w _ hin
      simp at heq
    | ok b =>
      cases b with
      | true =>
        rw [rollout_sd_true w d hres] at hin
        rcases List.mem_append.mp hin with h | h
        · simp only [sdPhase] at h
          obtain ⟨i2, f2, heq, _⟩ := sd_ops d _ w _ h
          simp at heq
        · simp at h
      | false =>
        cases hfind : findNewRS d w.rss with
        | some nrs =>
          by_cases hz : nrs.replicas = d.replicas
          · rw [rollout_steady_some w d nrs hres hfind hz] at hin
            rw [cleanup_ops] at hin
            simp at hin
          · rcases Bool.eq_false_or_eq_true (w.scaleFailIds.contains nrs.id)
              with hf | hf
            · rw [rollout_uperr_some w d nrs hres hfind hz hf] at hin
              simp at hin
            · rw [rollout_up_some w d nrs hres hfind hz hf] at hin
              simp at hin
        | none => exact ⟨rfl, rfl⟩
  refine ⟨by rw [resolve_false], by rw [resolve_false], hbranch, ?_⟩
  intro i hin herr
  obtain ⟨hfind, hres⟩ := hbranch i hin
  by_cases hz : d.replicas = 0
  · rw [rollout_steady_none w d hres hfind hz]
    exact ⟨createdRS w d, find_new_in_cleanup_of_created w d hwf hfind, hz.symm⟩
  · rcases Bool.eq_false_or_eq_true (w.scaleFailIds.contains w.nextId) with hf | hf
    · rw [rollout_uperr_none w d hres hfind hz hf] at herr
      simp at herr
    · rw [rollout_up_none w d hres hfind hz hf]
      exact ⟨{ createdRS w d with replicas := d.replicas },
        find_new_in_scaled_created w d hfind, rfl⟩

theorem deferred_creation_witness :
    (getAllReplicaSetsAndSyncRevision convergenceWorld convergenceDeployment
      false).ops = [] ∧
    (getAllReplicaSetsAndSyncRevision convergenceWorld convergenceDeployment
      false).world = convergenceWorld ∧
    (∀ i, Op.created i ∈ (rolloutRecreate convergenceWorld
        convergenceDeployment).trace →
      findNewRS convergenceDeployment convergenceWorld.rss = none ∧
      (sdPhase convergenceWorld convergenceDeployment).res = Except.ok false) ∧
    (∀ i, Op.created i ∈ (rolloutRecreate convergenceWorld
        convergenceDeployment).trace →
      (rolloutRecreate convergenceWorld convergenceDeployment).err = none →
      ∃ nrs, findNewRS convergenceDeployment
        (rolloutRecreate convergenceWorld convergenceDeployment).world.rss =
          some nrs ∧
        nrs.replicas = convergenceDeployment.replicas) :=
  deferred_creation convergenceWorld convergenceDeployment (by decide)

lemma stable_pass (w : World) (d : Deployment) (nrs : ReplicaSet)
    (hstable : ∀ rs ∈ w.rss, isOld d rs = true → rs.replicas = 0)
    (hfind : findNewRS d w.rss = some nrs)
    (hz : nrs.replicas = d.replicas) :
    rolloutRecreate w d =
      { world := (cleanupDeployment w (oldRSsOf d w.rss) d).2.1
      , trace := [Op.cleanedUp ((oldRSsOf d w.rss).map ReplicaSet.id),
          Op.syncedStatus ((oldRSsOf d w.rss).map some ++ [some nrs]) (some nrs)]
      , err := none } := by
  have hzz : ∀ rs ∈ FilterActiveReplicaSets (oldRSsOf d w.rss), rs.replicas = 0 := by
    intro r hr
    have h1 := List.mem_filter.mp hr
    have h2 := List.mem_filter.mp h1.1
    exact hstable r h2.1 h2.2
  have hsd : (sdPhase w d).res = Except.ok false := by
    simp only [sdPhase]
    rw [sd_all_zero d _ w hzz]
  rw [rollout_steady_some w d nrs hsd hfind hz, cleanup_ops]
  rfl

lemma excess_not_contains_new (w : World) (d : Deployment) (hwf : WF w)
    (nrs : ReplicaSet) (hfind : findNewRS d w.rss = some nrs) (limit : Nat) :
    (((((oldRSsOf d w.rss).filter fun rs =>
        rs.replicas == 0 && rs.observed == 0).drop limit).map
        ReplicaSet.id).contains nrs.id) = false := by
  rw [Bool.eq_false_iff]
  intro h
  have h2 : nrs.id ∈ (((oldRSsOf d w.rss).filter fun rs =>
      rs.replicas == 0 && rs.observed == 0).drop limit).map ReplicaSet.id := by
    simpa using h
  obtain ⟨r, hr, hid⟩ := List.mem_map.mp h2
  have hr2 : r ∈ (oldRSsOf d w.rss).filter fun rs =>
      rs.replicas == 0 && rs.observed == 0 := List.drop_subset _ _ hr
  have hr2b : r ∈ oldRSsOf d w.rss := List.mem_of_mem_filter hr2
  have hold : (r.templateHash != d.templateHash) = true :=
    (List.mem_filter.mp hr2b).2
  have hr3 : r ∈ w.rss := by
    have h4 : r ∈ List.filter (fun rs => rs.templateHash != d.templateHash) w.rss := hr2b
    exact List.mem_of_mem_filter h4
  have hfind2 : w.rss.find? (fun rs => rs.templateHash == d.templateHash) =
      some nrs := hfind
  have hnrs : nrs ∈ w.rss := List.mem_of_find?_eq_some hfind2
  have hreq : r = nrs := List.inj_on_of_nodup_map hwf.1 hr3 hnrs hid
  have hp := List.find?_some hfind2
  rw [hreq] at hold
  simp at hold hp
  exact hold hp

lemma find?_filter_of_find? {α : Type} {p g : α → Bool} {l : List α} {a : α}
    (h : l.find? p = some a) (hg : g a = true) :
    (l.filter g).find? p = some a := by
  induction l with
  | nil => simp at h
  | cons x xs ih =>
    cases hp : p x with
    | true =>
      rw [List.find?_cons_of_pos _ hp] at h
      injection h with h
      subst h
      rw [List.filter_cons, if_pos hg, List.find?_cons_of_pos _ hp]
    | false =>
      rw [List.find?_cons_of_neg _ (by simp [hp])] at h
      by_cases hgx : g x = true
      · rw [List.filter_cons, if_pos hgx, List.find?_cons_of_neg _ (by simp [hp])]
        exact ih h
      · rw [List.filter_cons, if_neg hgx]
        exact ih h

lemma sum_observed_filter (olds : List ReplicaSet) (g : ReplicaSet → Bool)
    (h : ∀ r ∈ olds, g r = false → r.observed = 0) :
    ((olds.filter g).map ReplicaSet.observed).sum =
      (olds.map ReplicaSet.observed).sum := by
  induction olds with
  | nil => simp
  | cons x xs ih =>
    have ih2 := ih fun r hr hg => h r (List.mem_cons_of_mem x hr) hg
    by_cases hg : g x = true
    · simp [List.filter_cons, hg, ih2]
    · have hx : x.observed = 0 :=
        h x (List.mem_cons_self x xs) (Bool.eq_false_iff.mpr hg)
    
      simp [List.filter_cons, hg, hx, ih2]

lemma cleanup_world_stable (w : World) (d : Deployment) (nrs : ReplicaSet)
    (hwf : WF w)
    (hstable : ∀ rs ∈ w.rss, isOld d rs = true → rs.replicas = 0)
    (hfind : findNewRS d w.rss = some nrs) :
    (∀ rs ∈ (cleanupDeployment w (oldRSsOf d w.rss) d).2.1.rss,
      isOld d rs = true → rs.replicas = 0) ∧
    findNewRS d (cleanupDeployment w (oldRSsOf d w.rss) d).2.1.rss = some nrs ∧
    ((oldRSsOf d (cleanupDeployment w (oldRSsOf d w.rss) d).2.1.rss).map
      ReplicaSet.observed).sum =
      ((oldRSsOf d w.rss).map ReplicaSet.observed).sum := by
  refine ⟨fun rs hrs hold =>
    hstable rs (cleanup_world_mem w _ d rs hrs) hold, ?_⟩
  unfold cleanupDeployment
  by_cases hcf : w.cleanupFails
  · simp [hcf]
    exact hfind
  · cases hl : d.revisionHistoryLimit with
    | none =>
      simp [hcf, hl]
      exact hfind
    | some limit =>
      simp only [hcf, Bool.false_eq_true, if_neg, not_false_iff, hl]
      constructor
      · have hg : (!((((oldRSsOf d w.rss).filter fun rs =>
            rs.replicas == 0 && rs.observed == 0).drop limit).map
            ReplicaSet.id).contains nrs.id) = true := by
          rw [excess_not_contains_new w d hwf nrs hfind limit]
          rfl
        exact find?_filter_of_find? hfind hg
      · have hcomm : oldRSsOf d (w.rss.filter fun rs =>
            !((((oldRSsOf d w.rss).filter fun rs =>
              rs.replicas == 0 && rs.observed == 0).drop limit).map
              ReplicaSet.id).contains rs.id) =
            (oldRSsOf d w.rss).filter fun rs =>
            !((((oldRSsOf d w.rss).filter fun rs =>
              rs.replicas == 0 && rs.observed == 0).drop limit).map
              ReplicaSet.id).contains rs.id := by
          simp only [oldRSsOf, List.filter_filter]
          congr 1
          funext r
          rw [Bool.and_comm]
        rw [hcomm]
        apply sum_observed_filter
        intro r hr hg
        have hc : ((((oldRSsOf d w.rss).filter fun rs =>
            rs.replicas == 0 && rs.observed == 0).drop limit).map
            ReplicaSet.id).contains r.id = true := by
          rcases Bool.eq_false_or_eq_true (((((oldRSsOf d w.rss).filter fun rs =>
              rs.replicas == 0 && rs.observed == 0).drop limit).map
              ReplicaSet.id).contains r.id) with h | h
          · exact h
          · rw [h] at hg
            simp at hg
        have h2 : r.id ∈ (((oldRSsOf d w.rss).filter fun rs =>
            rs.replicas == 0 && rs.observed == 0).drop limit).map ReplicaSet.id := by
          simpa using hc
        obtain ⟨q, hq, hqid⟩ := List.mem_map.mp h2
        have hq2 : q ∈ (oldRSsOf d w.rss).filter fun rs =>
            rs.replicas == 0 && rs.observed == 0 := List.drop_subset _ _ hq
        have hqdel := (List.mem_filter.mp hq2).2
        have hq3 : q ∈ w.rss := by
          have h4 : q ∈ List.filter (fun rs => rs.templateHash != d.templateHash)
              w.rss := List.mem_of_mem_filter hq2
          exact List.mem_of_mem_filter h4
        have hr3 : r ∈ w.rss := by
          have h4 : r ∈ List.filter (fun rs => rs.templateHash != d.templateHash)
              w.rss := hr
          exact List.mem_of_mem_filter h4
        have hqr : q = r := List.inj_on_of_nodup_map hwf.1 hq3 hr3 hqid
        rw [hqr] at hqdel
        simp at hqdel
        exact hqdel.2

lemma calc_status_some (l : List ReplicaSet) (nrs : ReplicaSet) :
    calculateStatus (l.map some ++ [some nrs]) (some nrs) =
      { replicas := (l.map ReplicaSet.observed).sum + nrs.observed
      , updatedReplicas := nrs.observed } := by
  have hm : (l.map some).map
      (fun o => (Option.map ReplicaSet.observed o).getD 0) =
      l.map ReplicaSet.observed := by
    rw [List.map_map]
    rfl
  simp [calculateStatus, hm]

lemma statusOutput_pair (ids : List Nat) (a : List (Option ReplicaSet))
    (n : Option ReplicaSet) :
    statusOutput [Op.cleanedUp ids, Op.syncedStatus a n] = [calculateStatus a n] := rfl

/-- C2: idempotent fixed point.  On a stable state, with all old replica
sets at zero desired replicas and the new replica set at the deployment's
desired count, a pass succeeds with zero mutating calls (no scale, no
creation), and invoking the reconciler again mutates nothing and writes
an identical status output. -/
theorem idempotent_fixed_point (w : World) (d : Deployment) (nrs : ReplicaSet)
    (hwf : WF w)
    (hstable : ∀ rs ∈ w.rss, isOld d rs = true → rs.replicas = 0)
    (hfind : findNewRS d w.rss = some nrs)
    (hz : nrs.replicas = d.replicas) :
    (rolloutRecreate w d).err = none ∧
    (∀ op ∈ (rolloutRecreate w d).trace, isMutatingOp op = false) ∧
    (∀ op ∈ (rolloutRecreate (rolloutRecreate w d).world d).trace,
      isMutatingOp op = false) ∧
    statusOutput (rolloutRecreate (rolloutRecreate w d).world d).trace =
      statusOutput (rolloutRecreate w d).trace := by
  have hcw := cleanup_world_stable w d nrs hwf hstable hfind
  have h1 := stable_pass w d nrs hstable hfind hz
  have h2 := stable_pass (cleanupDeployment w (oldRSsOf d w.rss) d).2.1 d nrs
    hcw.1 hcw.2.1 hz
  have hworld : (rolloutRecreate w d).world =
      (cleanupDeployment w (oldRSsOf d w.rss) d).2.1 := by rw [h1]
  refine ⟨by rw [h1], ?_, ?_, ?_⟩
  · rw [h1]
    intro op hop
    simp at hop
    rcases hop with rfl | rfl <;> rfl
  · rw [hworld, h2]
    intro op hop
    simp at hop
    rcases hop with rfl | rfl <;> rfl
  · rw [hworld, h2, h1]
    rw [statusOutput_pair, statusOutput_pair, calc_status_some, calc_status_some,
      hcw.2.2]

/-- A stable store: new replica set (hash 4) at desired 5, old replica
set (hash 3) at zero desired and observed. -/
def steadyWorld : World :=
  { rss := [{ id := 2, templateHash := 4, replicas := 5, observed := 5 },
            { id := 1, templateHash := 3, replicas := 0, observed := 0 }]
  , nextId := 3, scaleFailIds := [], cleanupFails := false }

theorem idempotent_fixed_point_witness :
    (rolloutRecreate steadyWorld convergenceDeployment).err = none ∧
    (∀ op ∈ (rolloutRecreate steadyWorld convergenceDeployment).trace,
      isMutatingOp op = false) ∧
    (∀ op ∈ (rolloutRecreate (rolloutRecreate steadyWorld
        convergenceDeployment).world convergenceDeployment).trace,
      isMutatingOp op = false) ∧
    statusOutput (rolloutRecreate (rolloutRecreate steadyWorld
        convergenceDeployment).world convergenceDeployment).trace =
      statusOutput (rolloutRecreate steadyWorld convergenceDeployment).trace :=
  idempotent_fixed_point steadyWorld convergenceDeployment
    { id := 2, templateHash := 4, replicas := 5, observed := 5 }
    (by decide) (by decide) (by decide) (by decide)

lemma cleanup_trace_facts (w : World) (d : Deployment) :
    ((∃ ids, Op.cleanedUp ids ∈ (rolloutRecreate w d).trace) ↔
      ((rolloutRecreate w d).err = none ∧
       ∀ op ∈ (rolloutRecreate w d).trace, ∀ i f c, op ≠ Op.scaled i f c)) ∧
    (∀ ids, Op.cleanedUp ids ∈ (rolloutRecreate w d).trace →
      ∃ a n, Op.syncedStatus a n ∈ (rolloutRecreate w d).trace) := by
  cases hres : (sdPhase w d).res with
  | error e =>
    rw [rollout_sd_err w d e hres]
    constructor
    · apply iff_of_false
      · rintro ⟨ids, hin⟩
        simp only [sdPhase] at hin
        obtain ⟨i, f, heq, _⟩ := sd_ops d _ w _ hin
        simp at heq
      · rintro ⟨h1, -⟩
        simp at h1
    · rintro ids hin
      simp only [sdPhase] at hin
      obtain ⟨i, f, heq, _⟩ := sd_ops d _ w _ hin
      simp at heq
  | ok b =>
    cases b with
    | true =>
      rw [rollout_sd_true w d hres]
      have hsc : ∀ op ∈ (sdPhase w d).ops ++
          [Op.updatedStatus ((oldRSsOf d w.rss).map some ++ [findNewRS d w.rss])
            (findNewRS d w.rss)], (∀ ids, op ≠ Op.cleanedUp ids) := by
        intro op hop ids
        rcases List.mem_append.mp hop with h | h
        · simp only [sdPhase] at h
          obtain ⟨i, f, heq, _⟩ := sd_ops d _ w _ h
          simp [heq]
        · simp at h
          simp [h]
      constructor
      · apply iff_of_false
        · rintro ⟨ids, hin⟩
          exact hsc _ hin ids rfl
        · rintro ⟨-, h2⟩
          have hne : (sdPhase w d).ops ≠ [] := by
            simp only [sdPhase]
            exact sd_ok_true_ops d _ w (by simpa [sdPhase] using hres)
          obtain ⟨op, hop⟩ := List.exists_mem_of_ne_nil _ hne
          have hop2 : op ∈ (sdPhase w d).ops ++
              [Op.updatedStatus ((oldRSsOf d w.rss).map some ++
                [findNewRS d w.rss]) (findNewRS d w.rss)] :=
            List.mem_append_left _ hop
          simp only [sdPhase] at hop
          obtain ⟨i, f, heq, _⟩ := sd_ops d _ w _ hop
          exact h2 op hop2 i f 0 heq
      · rintro ids hin
        exact absurd rfl (hsc _ hin ids)
    | false =>
      cases hfind : findNewRS d w.rss with
      | some nrs =>
        by_cases hz : nrs.replicas = d.replicas
        · rw [rollout_steady_some w d nrs hres hfind hz, cleanup_ops]
          constructor
          · apply iff_of_true
            · exact ⟨(oldRSsOf d w.rss).map ReplicaSet.id, by simp⟩
            · refine ⟨rfl, ?_⟩
              intro op hop i f c
              simp at hop
              rcases hop with rfl | rfl <;> simp
          · intro ids hin
            exact ⟨(oldRSsOf d w.rss).map some ++ [some nrs], some nrs, by simp⟩
        · rcases Bool.eq_false_or_eq_true (w.scaleFailIds.contains nrs.id)
            with hf | hf
          · rw [rollout_uperr_some w d nrs hres hfind hz hf]
            constructor
            · apply iff_of_false
              · rintro ⟨ids, hin⟩
                simp at hin
              · rintro ⟨h1, -⟩
                simp at h1
            · rintro ids hin
              simp at hin
          · rw [rollout_up_some w d nrs hres hfind hz hf]
            constructor
            · apply iff_of_false
              · rintro ⟨ids, hin⟩
                simp at hin
              · rintro ⟨-, h2⟩
                exact h2 (Op.scaled nrs.id nrs.replicas d.replicas) (by simp)
                  nrs.id nrs.replicas d.replicas rfl
            · rintro ids hin
              simp at hin
      | none =>
        by_cases hz : d.replicas = 0
        · rw [rollout_steady_none w d hres hfind hz, cleanup_ops]
          constructor
          · apply iff_of_true
            · exact ⟨(oldRSsOf d w.rss).map ReplicaSet.id, by simp⟩
            · refine ⟨rfl, ?_⟩
              intro op hop i f c
              simp at hop
              rcases hop with rfl | rfl | rfl <;> simp
          · intro ids hin
            exact ⟨(oldRSsOf d w.rss).map some ++ [some (createdRS w d)],
              some (createdRS w d), by simp⟩
        · rcases Bool.eq_false_or_eq_true (w.scaleFailIds.contains w.nextId)
            with hf | hf
          · rw [rollout_uperr_none w d hres hfind hz hf]
            constructor
            · apply iff_of_false
              · rintro ⟨ids, hin⟩
                simp at hin
              · rintro ⟨h1, -⟩
                simp at h1
            · rintro ids hin
              simp at hin
          · rw [rollout_up_none w d hres hfind hz hf]
            constructor
            · apply iff_of_false
              · rintro ⟨ids, hin⟩
                simp at hin
              · rintro ⟨-, h2⟩
                exact h2 (Op.scaled w.nextId 0 d.replicas) (by simp)
                  w.nextId 0 d.replicas rfl
            · rintro ids hin
              simp at hin

/-- C7: steady-state cleanup.  The cleanup step appears in a pass's trace
exactly when the pass succeeded with no mutating scale (neither the
scale-down nor the scale-up phase produced a change), and whenever
cleanup was invoked the pass also synced final status; in particular,
reconciling an already-stable deployment issues no scale call and invokes
cleanup. -/
theorem steady_state_cleanup (w : World) (d : Deployment) :
    ((∃ ids, Op.cleanedUp ids ∈ (rolloutRecreate w d).trace) ↔
      ((rolloutRecreate w d).err = none ∧
       ∀ op ∈ (rolloutRecreate w d).trace, ∀ i f c, op ≠ Op.scaled i f c)) ∧
    (∀ ids, Op.cleanedUp ids ∈ (rolloutRecreate w d).trace →
      ∃ a n, Op.syncedStatus a n ∈ (rolloutRecreate w d).trace) ∧
    (∀ nrs : ReplicaSet,
      (∀ rs ∈ w.rss, isOld d rs = true → rs.replicas = 0) →
      findNewRS d w.rss = some nrs → nrs.replicas = d.replicas →
      (∀ op ∈ (rolloutRecreate w d).trace, ∀ i f c, op ≠ Op.scaled i f c) ∧
      ∃ ids, Op.cleanedUp ids ∈ (rolloutRecreate w d).trace) := by
  refine ⟨(cleanup_trace_facts w d).1, (cleanup_trace_facts w d).2, ?_⟩
  intro nrs hstable hfind hz
  rw [stable_pass w d nrs hstable hfind hz]
  constructor
  · intro op hop i f c
    simp at hop
    rcases hop with rfl | rfl <;> simp
  · exact ⟨(oldRSsOf d w.rss).map ReplicaSet.id, by simp⟩

theorem steady_state_cleanup_witness :
    (∀ op ∈ (rolloutRecreate steadyWorld convergenceDeployment).trace,
      ∀ i f c, op ≠ Op.scaled i f c) ∧
    ∃ ids, Op.cleanedUp ids ∈
      (rolloutRecreate steadyWorld convergenceDeployment).trace :=
  (steady_state_cleanup steadyWorld convergenceDeployment).2.2
    { id := 2, templateHash := 4, replicas := 5, observed := 5 }
    (by decide) (by decide) (by decide)

lemma scaleResult_eq {x y : ScaleResult} (h1 : x.res = y.res)
    (h2 : x.world = y.world) (h3 : x.ops = y.ops) : x = y := by
  cases x
  cases y
  simp only at h1 h2 h3
  rw [h1, h2, h3]

lemma sd_flag (d : Deployment) :
    ∀ (olds : List ReplicaSet) (w : World) (b : Bool),
      scaleDownOldReplicaSetsForRecreate { w with cleanupFails := b } olds d =
        { res := (scaleDownOldReplicaSetsForRecreate w olds d).res
        , world := { (scaleDownOldReplicaSetsForRecreate w olds d).world with
            cleanupFails := b }
        , ops := (scaleDownOldReplicaSetsForRecreate w olds d).ops } := by
  intro olds
  induction olds with
  | nil => intro w b; rw [sd_nil, sd_nil]
  | cons rs rest ih =>
    intro w b
    by_cases hz : rs.replicas = 0
    · rw [sd_cons_zero _ rs rest d hz, sd_cons_zero w rs rest d hz]
      exact ih w b
    · rcases Bool.eq_false_or_eq_true (w.scaleFailIds.contains rs.id) with hf | hf
      · have hf2 : ({ w with cleanupFails := b } : World).scaleFailIds.contains
            rs.id = true := hf
        rw [sd_cons_fail _ rs rest d hz hf2, sd_cons_fail w rs rest d hz hf]
      · have hf2 : ({ w with cleanupFails := b } : World).scaleFailIds.contains
            rs.id = false := hf
        have hzw : zeroWorld ({ w with cleanupFails := b } : World) rs.id =
            { zeroWorld w rs.id with cleanupFails := b } := rfl
        have ihz := ih (zeroWorld w rs.id) b
        have hworld := sd_cons_scale_world { w with cleanupFails := b } rs rest d hz hf2
        have hops := sd_cons_scale_ops { w with cleanupFails := b } rs rest d hz hf2
        have hworld0 := sd_cons_scale_world w rs rest d hz hf
        have hops0 := sd_cons_scale_ops w rs rest d hz hf
        apply scaleResult_eq
        · cases hres : (scaleDownOldReplicaSetsForRecreate (zeroWorld w rs.id)
              rest d).res with
          | error e =>
            rw [sd_cons_scale_res_err { w with cleanupFails := b } rs rest d e hz hf2
              (by rw [hzw, ihz]; exact hres)]
            rw [sd_cons_scale_res_err w rs rest d e hz hf hres]
          | ok b2 =>
            rw [sd_cons_scale_res_ok { w with cleanupFails := b } rs rest d b2 hz hf2
              (by rw [hzw, ihz]; exact hres)]
            rw [sd_cons_scale_res_ok w rs rest d b2 hz hf hres]
        · rw [hworld, hzw, ihz, hworld0]
        · rw [hops, hzw, ihz, hops0]

lemma rollout_flag (w : World) (d : Deployment) (b : Bool) :
    (rolloutRecreate { w with cleanupFails := b } d).err =
      (rolloutRecreate w d).err ∧
    (rolloutRecreate { w with cleanupFails := b } d).trace =
      (rolloutRecreate w d).trace := by
  have hsdeq : sdPhase { w with cleanupFails := b } d =
      { res := (sdPhase w d).res
      , world := { (sdPhase w d).world with cleanupFails := b }
      , ops := (sdPhase w d).ops } := by
    simp only [sdPhase]
    exact sd_flag d _ w b
  cases hres : (sdPhase w d).res with
  | error e =>
    rw [rollout_sd_err w d e hres,
      rollout_sd_err { w with cleanupFails := b } d e (by rw [hsdeq]; exact hres),
      hsdeq]
    exact ⟨rfl, rfl⟩
  | ok bb =>
    cases bb with
    | true =>
      rw [rollout_sd_true w d hres,
        rollout_sd_true { w with cleanupFails := b } d (by rw [hsdeq]; exact hres),
        hsdeq]
      exact ⟨rfl, rfl⟩
    | false =>
      have hres2 : (sdPhase { w with cleanupFails := b } d).res =
          Except.ok false := by
        rw [hsdeq]; exact hres
      cases hfind : findNewRS d w.rss with
      | some nrs =>
        have hfind2 : findNewRS d ({ w with cleanupFails := b } : World).rss =
            some nrs := hfind
        by_cases hz : nrs.replicas = d.replicas
        · rw [rollout_steady_some w d nrs hres hfind hz,
            rollout_steady_some _ d nrs hres2 hfind2 hz, cleanup_ops, cleanup_ops]
          exact ⟨rfl, rfl⟩
        · rcases Bool.eq_false_or_eq_true (w.scaleFailIds.contains nrs.id)
            with hf | hf
          · have hf2 : ({ w with cleanupFails := b } : World).scaleFailIds.contains
                nrs.id = true := hf
            rw [rollout_uperr_some w d nrs hres hfind hz hf,
              rollout_uperr_some _ d nrs hres2 hfind2 hz hf2]
            exact ⟨rfl, rfl⟩
          · have hf2 : ({ w with cleanupFails := b } : World).scaleFailIds.contains
                nrs.id = false := hf
            rw [rollout_up_some w d nrs hres hfind hz hf,
              rollout_up_some _ d nrs hres2 hfind2 hz hf2]
            exact ⟨rfl, rfl⟩
      | none =>
        have hfind2 : findNewRS d ({ w with cleanupFails := b } : World).rss =
            none := hfind
        by_cases hz : d.replicas = 0
        · rw [rollout_steady_none w d hres hfind hz,
            rollout_steady_none _ d hres2 hfind2 hz, cleanup_ops, cleanup_ops]
          exact ⟨rfl, rfl⟩
        · rcases Bool.eq_false_or_eq_true (w.scaleFailIds.contains w.nextId)
            with hf | hf
          · have hf2 : ({ w with cleanupFails := b } : World).scaleFailIds.contains
                ({ w with cleanupFails := b } : World).nextId = true := hf
            rw [rollout_uperr_none w d hres hfind hz hf,
              rollout_uperr_none _ d hres2 hfind2 hz hf2]
            exact ⟨rfl, rfl⟩
          · have hf2 : ({ w with cleanupFails := b } : World).scaleFailIds.contains
                ({ w with cleanupFails := b } : World).nextId = false := hf
            rw [rollout_up_none w d hres hfind hz hf,
              rollout_up_none _ d hres2 hfind2 hz hf2]
            exact ⟨rfl, rfl⟩

/-- C8: cleanup failure is swallowed.  A pass run with an injected
cleanup failure returns the same error (none or not) and the same trace
as the same pass without the failure, and whenever the cleanup step was
reached the pass still returns success and proceeds to sync status; so
the result of `rolloutRecreate` is determined solely by the resolution,
scaling and status operations. -/
theorem cleanup_failure_swallowed (w : World) (d : Deployment) :
    (rolloutRecreate { w with cleanupFails := true } d).err =
      (rolloutRecreate { w with cleanupFails := false } d).err ∧
    (rolloutRecreate { w with cleanupFails := true } d).trace =
      (rolloutRecreate { w with cleanupFails := false } d).trace ∧
    (∀ ids, Op.cleanedUp ids ∈
        (rolloutRecreate { w with cleanupFails := true } d).trace →
      (rolloutRecreate { w with cleanupFails := true } d).err = none ∧
      ∃ a n, Op.syncedStatus a n ∈
        (rolloutRecreate { w with cleanupFails := true } d).trace) := by
  refine ⟨?_, ?_, ?_⟩
  · rw [(rollout_flag w d true).1, (rollout_flag w d false).1]
  · rw [(rollout_flag w d true).2, (rollout_flag w d false).2]
  · intro ids hin
    refine ⟨((cleanup_trace_facts _ d).1.mp ⟨ids, hin⟩).1, ?_⟩
    exact (cleanup_trace_facts _ d).2 ids hin

theorem no_overlap_barrier_witness :
    (rolloutRecreate convergenceWorld convergenceDeployment).err = none ∧
    hasOverlap convergenceDeployment
      (rolloutRecreate convergenceWorld convergenceDeployment).world.rss = false :=
  ⟨((no_overlap_barrier convergenceWorld convergenceDeployment (by decide)).1
      (by decide)).1,
   ((no_overlap_barrier convergenceWorld convergenceDeployment (by decide)).2
      ((no_overlap_barrier convergenceWorld convergenceDeployment (by decide)).1
        (by decide)).1).2⟩

/-- A store with two active old replica sets where scaling the first one
down conflicts, for the abort witness. -/
def abortWorld : World :=
  { rss := [{ id := 2, templateHash := 3, replicas := 4, observed := 4 },
            { id := 1, templateHash := 5, replicas := 3, observed := 3 }]
  , nextId := 10, scaleFailIds := [2], cleanupFails := false }

theorem abort_on_scale_down_error_witness :
    (sdPhase abortWorld convergenceDeployment).res =
      Except.error (DErr.conflict 2) ∧
    (rolloutRecreate abortWorld convergenceDeployment).err =
      some (DErr.conflict 2) ∧
    (∀ op ∈ (rolloutRecreate abortWorld convergenceDeployment).trace,
      ∃ i f, op = Op.scaled i f 0 ∧
        i ∈ ([] : List ReplicaSet).map ReplicaSet.id) ∧
    (∀ r1 ∈ (rolloutRecreate abortWorld convergenceDeployment).world.rss,
      r1.templateHash = convergenceDeployment.templateHash →
        r1 ∈ abortWorld.rss) :=
  abort_on_scale_down_error abortWorld convergenceDeployment []
    [{ id := 1, templateHash := 5, replicas := 3, observed := 3 }]
    { id := 2, templateHash := 3, replicas := 4, observed := 4 }
    (by decide) (by decide) (by decide) (by decide) (by decide)

theorem cleanup_failure_swallowed_witness :
    (rolloutRecreate { steadyWorld with cleanupFails := true }
        convergenceDeployment).err =
      (rolloutRecreate { steadyWorld with cleanupFails := false }
        convergenceDeployment).err ∧
    (rolloutRecreate { steadyWorld with cleanupFails := true }
        convergenceDeployment).trace =
      (rolloutRecreate { steadyWorld with cleanupFails := false }
        convergenceDeployment).trace ∧
    (∀ ids, Op.cleanedUp ids ∈
        (rolloutRecreate { steadyWorld with cleanupFails := true }
          convergenceDeployment).trace →
      (rolloutRecreate { steadyWorld with cleanupFails := true }
        convergenceDeployment).err = none ∧
      ∃ a n, Op.syncedStatus a n ∈
        (rolloutRecreate { steadyWorld with cleanupFails := true }
          convergenceDeployment).trace) :=
  cleanup_failure_swallowed steadyWorld convergenceDeployment

/-- A one-entry route table for the route-deletion witness. -/
def witnessRoutes : List RouterRoute :=
  [{ destinationCIDR := "10.164.2.0/24", nextHop := "10.0.0.1" }]

theorem deleteRoute_index_safe_iff_witness :
    ((∃ r ∈ witnessRoutes, r.destinationCIDR = "10.164.2.0/24") ↔
      0 ≤ deleteRouteIndex witnessRoutes "10.164.2.0/24") ∧
    ((∃ r ∈ witnessRoutes, r.destinationCIDR = "10.164.2.0/24") ↔
      (deleteRouteUpdatedRoutes witnessRoutes "10.164.2.0/24").isSome = true) :=
  deleteRoute_index_safe_iff witnessRoutes "10.164.2.0/24"
